import Mathlib

/-!
Verification development for the StashtoEmby plugin repository.

The Python sources under the plugins directory are shallowly embedded:
pure string and path manipulation becomes Lean functions on String and
List Char, filesystem and HTTP interaction becomes explicit effect
traces parameterised by read-only oracles, and fallible code returns
Option or Except.  Paths are POSIX paths (os.sep is the slash); the
embedding of os.path.relpath assumes absolute inputs, where
os.path.abspath coincides with os.path.normpath.
-/

namespace StashEmby

/-! ## Python string and path primitives (posixpath semantics) -/

/-- Last index of a character in a list, minus one when absent
(Python str.rfind for a single character). -/
def lastIndexOf (cs : List Char) (c : Char) : Int :=
  match cs.reverse.findIdx? (fun x => x = c) with
  | some i => ((cs.length - 1 - i : Nat) : Int)
  | none => -1

/-- Python str.split(sep) for a single-character separator:
keeps empty fields, and the empty string splits to one empty field. -/
def splitChar (c : Char) : List Char → List (List Char)
  | [] => [[]]
  | x :: xs =>
    let r := splitChar c xs
    if x = c then [] :: r
    else
      match r with
      | t :: ts => (x :: t) :: ts
      | [] => [[x]]

/-- Python sep.join for the slash separator, on component character lists. -/
def joinComps : List (List Char) → List Char
  | [] => []
  | [c] => c
  | c :: cs => c ++ '/' :: joinComps cs

/-- Python str.startswith restricted to a plain prefix test. -/
def pyStartsWith (s pre : String) : Bool :=
  pre.data.isPrefixOf s.data

/-- Python str.strip() on ASCII whitespace. -/
def pyStrip (s : String) : String :=
  String.mk (((s.data.dropWhile Char.isWhitespace).reverse.dropWhile
    Char.isWhitespace).reverse)

/-- Python str.lower(), per character. -/
def pyLower (s : String) : String :=
  String.mk (s.data.map Char.toLower)

/-- Substring membership on character lists (Python in on strings). -/
def listIsInfix (sub : List Char) : List Char → Bool
  | [] => decide (sub = [])
  | c :: rest => sub.isPrefixOf (c :: rest) || listIsInfix sub rest

/-- Python str.endswith restricted to a plain suffix test. -/
def pyEndsWith (s suf : String) : Bool :=
  suf.data.reverse.isPrefixOf s.data.reverse

/-- Drop trailing slashes (Python str.rstrip with the slash). -/
def rstripSlashes (cs : List Char) : List Char :=
  (cs.reverse.dropWhile (fun c => c = '/')).reverse

/-- Component normalisation loop of posixpath.normpath. -/
def normpathComps (initialSlashes : Nat) (comps : List (List Char)) : List (List Char) :=
  comps.foldl
    (fun acc comp =>
      if comp = [] ∨ comp = ['.'] then acc
      else if comp ≠ ['.', '.'] ∨ (initialSlashes = 0 ∧ acc = []) ∨
              (acc ≠ [] ∧ acc.getLast? = some ['.', '.']) then
        acc ++ [comp]
      else if acc ≠ [] then acc.dropLast
      else acc)
    []

/-- posixpath.normpath. -/
def normpath (p : String) : String :=
  if p = "" then "."
  else
    let cs := p.data
    let initialSlashes : Nat :=
      if cs.take 1 = ['/'] then
        if cs.take 2 = ['/', '/'] ∧ cs.take 3 ≠ ['/', '/', '/'] then 2 else 1
      else 0
    let newComps := normpathComps initialSlashes (splitChar '/' cs)
    let path := List.replicate initialSlashes '/' ++ joinComps newComps
    if path = [] then "." else String.mk path

/-- posixpath.join for two arguments; n-ary join is the left fold. -/
def joinOne (a b : String) : String :=
  if pyStartsWith b "/" then b
  else if a = "" ∨ pyEndsWith a "/" then a ++ b
  else a ++ "/" ++ b

/-- posixpath.splitext. -/
def splitext (p : String) : String × String :=
  let cs := p.data
  let sepIndex := lastIndexOf cs '/'
  let dotIndex := lastIndexOf cs '.'
  if sepIndex < dotIndex ∧
      (((cs.drop (sepIndex + 1).toNat).take (dotIndex - sepIndex - 1).toNat).any
        (fun ch => ch ≠ '.')) = true then
    (String.mk (cs.take dotIndex.toNat), String.mk (cs.drop dotIndex.toNat))
  else (p, "")

/-- posixpath.basename. -/
def basename (p : String) : String :=
  String.mk (p.data.drop ((lastIndexOf p.data '/') + 1).toNat)

/-- posixpath.dirname. -/
def dirname (p : String) : String :=
  let cs := p.data
  let head := cs.take ((lastIndexOf cs '/') + 1).toNat
  if head ≠ [] ∧ head ≠ List.replicate head.length '/' then
    String.mk (rstripSlashes head)
  else String.mk head

/-- Length of the common elementwise prefix of two component lists
(os.path.commonprefix applied to split path lists). -/
def commonPrefixLen : List (List Char) → List (List Char) → Nat
  | a :: as, bs =>
    match bs with
    | b :: bs' => if a = b then commonPrefixLen as bs' + 1 else 0
    | [] => 0
  | [], _ => 0

/-- posixpath.relpath, modelled for absolute arguments (where abspath is
normpath).  The final join of '..' entries and path components reduces to
a slash join because every component is nonempty and slash-free. -/
def relpath (path start : String) : String :=
  let pl := (splitChar '/' (normpath path).data).filter (fun x => x ≠ [])
  let sl := (splitChar '/' (normpath start).data).filter (fun x => x ≠ [])
  let i := commonPrefixLen sl pl
  let relList := List.replicate (sl.length - i) ['.', '.'] ++ pl.drop i
  if relList = [] then "." else String.mk (joinComps relList)

/-- First occurrence split on the two-character arrow separator:
m.split(arrow, 1) after the containment test. -/
def splitArrowOnce : List Char → Option (List Char × List Char)
  | '-' :: '>' :: rest => some ([], rest)
  | c :: rest => (splitArrowOnce rest).map (fun p => (c :: p.1, p.2))
  | [] => none

/-- Python int() on a trimmed decimal string (optional sign), none when
the parse raises. -/
def pyParseInt (s : String) : Option Int :=
  let t := pyStrip s
  let digits : List Char → Option Nat := fun cs =>
    if cs ≠ [] ∧ cs.all Char.isDigit then
      some (cs.foldl (fun acc c => acc * 10 + (c.toNat - '0'.toNat)) 0)
    else none
  match t.data with
  | '-' :: rest => (digits rest).map (fun n => -(n : Int))
  | '+' :: rest => (digits rest).map (fun n => (n : Int))
  | cs => (digits cs).map (fun n => (n : Int))

/-- Substring containment test (Python in operator on strings), via
splitting on the pattern. -/
def strContains (s sub : String) : Bool :=
  listIsInfix sub.data s.data

/-! ## Template values and Python str.format

Template variable values are strings, integers, counts or None
(build_template_vars mixes these).  str.format is modelled for plain
replacement fields whose names are identifiers, which covers the
templates this plugin accepts; format specifications beyond that are
mapped to a formatting error, as is a field name absent from the
variable map (KeyError). -/

inductive TVal where
  | str (v : String)
  | int (v : Int)
  | nat (v : Nat)
  | null
deriving DecidableEq, Repr

/-- Python str() rendering of a template value. -/
def TVal.toStr : TVal → String
  | .str v => v
  | .int v => toString v
  | .nat v => toString v
  | .null => "None"

mutual

/-- Scanner for str.format outside a replacement field. -/
def pyFormatGo (vars : List (String × TVal)) : List Char → Option (List Char)
  | [] => some []
  | '{' :: '{' :: rest => (pyFormatGo vars rest).map (fun r => '{' :: r)
  | '}' :: '}' :: rest => (pyFormatGo vars rest).map (fun r => '}' :: r)
  | '{' :: rest => pyFormatField vars [] rest
  | '}' :: _ => none
  | c :: rest => (pyFormatGo vars rest).map (fun r => c :: r)

/-- Scanner for str.format inside a replacement field; acc holds the
field name read so far, reversed. -/
def pyFormatField (vars : List (String × TVal)) (acc : List Char) :
    List Char → Option (List Char)
  | [] => none
  | '}' :: rest =>
    match List.lookup (String.mk acc.reverse) vars with
    | some v => (pyFormatGo vars rest).map (fun r => (TVal.toStr v).data ++ r)
    | none => none
  | c :: rest =>
    if c.isAlphanum ∨ c = '_' then pyFormatField vars (c :: acc) rest
    else none

end

/-- template.format(**vars) under the restriction documented above. -/
def pyFormat (template : String) (vars : List (String × TVal)) : Option String :=
  (pyFormatGo vars template.data).map String.mk

/-! ## Data model

The GraphQL dictionaries used by the plugins are embedded as typed
records.  GraphQL null collapses onto the empty string for the string
fields, matching the (value or empty) reads in the source; the group
entries are flattened to the contained group names; organized is an
optional Boolean whose absence models a missing dictionary key. -/

structure Studio where
  name : String
  id : String
deriving DecidableEq, Repr

structure FileObj where
  id : String
  path : String
  width : Option Int
  height : Option Int
deriving DecidableEq, Repr

structure ScenePaths where
  screenshot : String
  webp : String
deriving DecidableEq, Repr

structure Scene where
  id : String
  title : String
  date : String
  code : String
  director : String
  studio : Option Studio
  performers : List String
  tags : List String
  groups : List String
  rating100 : Option Int
  stashIds : List String
  organized : Option Bool
  files : List FileObj
  paths : ScenePaths
deriving DecidableEq, Repr

/-- Stash server connection data used to build absolute URLs; the
Scheme/Host defaults from the source are folded into construction. -/
structure ServerConn where
  scheme : String
  host : String
  port : Option Nat
deriving DecidableEq, Repr

/-- Plugin settings of AutoMoveOrganized, after load_settings has
applied its defaults. -/
structure Settings where
  source_target_mapping : String
  filename_template : String
  target_root : String
  multi_file_mode : String
  move_only_organized : Bool
  dry_run : Bool
  enable_hook_mode : Bool
  write_nfo : Bool
  download_poster : Bool
  serverConn : ServerConn
deriving DecidableEq, Repr

/-! ## AutoMoveOrganized: path templating -/

/-- Characters replaced by an underscore in safe_segment: the two
separators and the re.sub character class. -/
def badChars : List Char := ['\\', '/', '<', '>', ':', '"', '|', '?', '*']

/-- auto_move_organized.safe_segment: strip, replace separators and
illegal characters by underscores, and guard against emptiness. -/
def safe_segment (segment : String) : String :=
  let s := pyStrip segment
  let s2 := String.mk (s.data.map (fun c => if c ∈ badChars then '_' else c))
  if s2 = "" then "_" else s2

/-- Separator class of the re.split pattern in build_target_path. -/
def isPathSep (c : Char) : Bool := c = '/' ∨ c = '\\'

mutual

/-- re.split on runs of slashes: scanner outside a separator run. -/
def splitRunsGo : List Char → List Char → List String
  | [], acc => [String.mk acc.reverse]
  | c :: rest, acc =>
    if isPathSep c then String.mk acc.reverse :: splitRunsSkip rest
    else splitRunsGo rest (c :: acc)

/-- re.split on runs of slashes: scanner inside a separator run. -/
def splitRunsSkip : List Char → List String
  | [] => [""]
  | c :: rest => if isPathSep c then splitRunsSkip rest else splitRunsGo rest [c]

end

/-- re.split of a string at maximal runs of slashes and backslashes. -/
def splitSlashRuns (s : String) : List String :=
  splitRunsGo s.data []

/-- Date decomposition of build_template_vars: the anchored regular
expression match of a leading YYYY-MM-DD. -/
def parseDateYMD (s : String) : Option (String × String × String) :=
  let cs := s.data
  let y := cs.take 4
  let mo := (cs.drop 5).take 2
  let d := (cs.drop 8).take 2
  if y.length = 4 ∧ y.all Char.isDigit ∧ (cs.drop 4).head? = some '-' ∧
      mo.length = 2 ∧ mo.all Char.isDigit ∧ (cs.drop 7).head? = some '-' ∧
      d.length = 2 ∧ d.all Char.isDigit then
    some (String.mk y, String.mk mo, String.mk d)
  else none

/-- Resolution and quality labels derived from the file dimensions in
build_template_vars. -/
def resolutionQuality (width height : Option Int) : String × String :=
  match width, height with
  | some w, some h =>
    if w > 0 ∧ h > 0 then
      let minDim := min w h
      let resQ : String × String :=
        if minDim ≥ 4320 then ("8K", "FUHD")
        else if minDim ≥ 2160 then ("4K", "UHD")
        else if minDim ≥ 1440 then ("1440p", "QHD")
        else if minDim ≥ 1080 then ("1080p", "FHD")
        else if minDim ≥ 720 then ("720p", "HD")
        else if minDim ≥ 480 then ("480p", "SD")
        else ("480p", "LOW")
      if resQ.1 = "1080p" ∧ w ≥ 2000 ∧ w < 2560 then (resQ.1, "2K") else resQ
    else ("", "")
  | _, _ => ("", "")

/-- auto_move_organized.build_template_vars, returned as the association
list of the Python dictionary literal, in source order. -/
def build_template_vars (scene : Scene) (filePath : String)
    (fileObj : Option FileObj) : List (String × TVal) :=
  let original_basename := basename filePath
  let se := splitext original_basename
  let ext := String.mk (se.2.data.dropWhile (fun c => c = '.'))
  let ymd := (parseDateYMD scene.date).getD ("", "", "")
  let studio_name := (scene.studio.map Studio.name).getD ""
  let studio_id := (scene.studio.map Studio.id).getD ""
  let performer_names := scene.performers.filter (fun n => n ≠ "")
  let performers_str := String.intercalate "-" performer_names
  let first_performer := performer_names.headD ""
  let tag_names := scene.tags.filter (fun n => n ≠ "")
  let tags_str := String.intercalate ", " tag_names
  let group_name := scene.groups.headD ""
  let rating : String :=
    match scene.rating100 with
    | some r => toString r
    | none => ""
  let external_id := scene.stashIds.headD ""
  let width := fileObj.bind FileObj.width
  let height := fileObj.bind FileObj.height
  let rq := resolutionQuality width height
  [("id", TVal.str scene.id),
   ("scene_title", TVal.str scene.title),
   ("scene_date", TVal.str scene.date),
   ("date_year", TVal.str ymd.1),
   ("date_month", TVal.str ymd.2.1),
   ("date_day", TVal.str ymd.2.2),
   ("studio", TVal.str studio_name),
   ("studio_name", TVal.str studio_name),
   ("studio_id", TVal.str studio_id),
   ("code", TVal.str scene.code),
   ("director", TVal.str scene.director),
   ("performers", TVal.str performers_str),
   ("first_performer", TVal.str first_performer),
   ("performer_count", TVal.nat performer_names.length),
   ("tag_names", TVal.str tags_str),
   ("tags", TVal.str tags_str),
   ("group_name", TVal.str group_name),
   ("rating100", match scene.rating100 with
                 | some r => TVal.int r
                 | none => TVal.null),
   ("rating", TVal.str rating),
   ("original_basename", TVal.str original_basename),
   ("original_name", TVal.str se.1),
   ("ext", TVal.str ext),
   ("external_id", TVal.str external_id),
   ("width", match width with
             | some w => TVal.int w
             | none => TVal.null),
   ("height", match height with
              | some h => TVal.int h
              | none => TVal.null),
   ("resolution", TVal.str rq.1),
   ("quality", TVal.str rq.2)]

/-- Lookup of a template variable rendered back to a string, used where
the source indexes vars_map directly. -/
def varAsStr (vars : List (String × TVal)) (k : String) : String :=
  match List.lookup k vars with
  | some v => TVal.toStr v
  | none => ""

/-- The loop replacing both separators by underscores inside string
variable values (vars_map_for_path). -/
def sanitizeVarsForPath (vars : List (String × TVal)) : List (String × TVal) :=
  vars.map (fun kv =>
    match kv.2 with
    | TVal.str v =>
      (kv.1, TVal.str (String.mk (v.data.map
        (fun c => if c = '\\' ∨ c = '/' then '_' else c))))
    | other => (kv.1, other))

/-- Dictionary of file ids to indices built in apply_multi_file_suffix,
read back with default zero; a duplicated id keeps its last index, as
the comprehension overwrites earlier entries. -/
def fileIdIndex (files : List FileObj) (fid : String) : Nat :=
  ((files.foldl
      (fun (st : Nat × Option Nat) f =>
        (st.1 + 1, if f.id = fid then some st.1 else st.2))
      (0, none)).2).getD 0

/-- auto_move_organized.apply_multi_file_suffix. -/
def apply_multi_file_suffix (filename : String) (scene : Scene)
    (fileObj : FileObj) (settings : Settings) : String :=
  if settings.multi_file_mode ≠ "all" then filename
  else if scene.files.length ≤ 1 then filename
  else
    let fileIndex := fileIdIndex scene.files fileObj.id
    let se := splitext filename
    se.1 ++ "-cd" ++ toString (fileIndex + 1) ++ se.2

/-- Filename construction block of build_target_path (the block is
repeated verbatim in each branch of the source): template substitution
over the sanitised variables, per-segment cleaning, extension
preservation and the multi-file suffix.  none models the RuntimeError
raised when the template substitution fails. -/
def renderFilenamePart (scene : Scene) (filePath : String) (fileObj : FileObj)
    (settings : Settings) : Option String :=
  let template := pyStrip settings.filename_template
  let varsMap := build_template_vars scene filePath (some fileObj)
  let original_basename := varAsStr varsMap "original_basename"
  let ext := varAsStr varsMap "ext"
  match pyFormat template (sanitizeVarsForPath varsMap) with
  | none => none
  | some filenamePart =>
    let parts := ((splitSlashRuns filenamePart).filter
      (fun p => p ≠ "")).map safe_segment
    let filenameClean :=
      match parts with
      | [] => original_basename
      | p :: ps => ps.foldl joinOne p
    let filenameClean :=
      if (splitext filenameClean).2 = "" ∧ ext ≠ "" then
        filenameClean ++ "." ++ ext
      else filenameClean
    some (apply_multi_file_suffix filenameClean scene fileObj settings)

/-- First-level subdirectory extraction shared by the mapped branches:
rel_parts[0] when nonempty, otherwise the empty string. -/
def firstLevelDir (rel : String) : String :=
  match splitChar '/' rel.data with
  | p :: _ => if p ≠ [] then String.mk p else ""
  | [] => ""

/-- auto_move_organized.build_target_path.  The RuntimeError messages of
the source become error values. -/
def build_target_path (scene : Scene) (filePath : String) (fileObj : FileObj)
    (settings : Settings) : Except String String :=
  let mapping := pyStrip settings.source_target_mapping
  if mapping ≠ "" then
    match splitArrowOnce mapping.data with
    | none => Except.error "mapping format error"
    | some lr =>
      let sourceBase := pyStrip (String.mk lr.1)
      let targetBase := pyStrip (String.mk lr.2)
      if sourceBase ≠ "" ∧ targetBase ≠ "" then
        let nSource := normpath sourceBase
        let nTarget := normpath targetBase
        let nFile := normpath filePath
        if pyStartsWith nFile (nSource ++ "/") ∨ nFile = nSource then
          match renderFilenamePart scene filePath fileObj settings with
          | none => Except.error "template format failed"
          | some fc =>
            let fld := firstLevelDir (relpath filePath nSource)
            Except.ok (normpath (joinOne (joinOne targetBase fld) fc))
        else if pyStartsWith nFile (nTarget ++ "/") ∨ nFile = nTarget then
          match renderFilenamePart scene filePath fileObj settings with
          | none => Except.error "template format failed"
          | some fc =>
            let fld := firstLevelDir (relpath filePath nTarget)
            Except.ok (normpath (joinOne (joinOne targetBase fld) fc))
        else
          let targetRoot := pyStrip settings.target_root
          if targetRoot = "" then Except.error "target_root unset"
          else
            match renderFilenamePart scene filePath fileObj settings with
            | none => Except.error "template format failed"
            | some rc => Except.ok (joinOne targetRoot rc)
      else Except.error "empty source or target"
  else
    let targetRoot := pyStrip settings.target_root
    if targetRoot = "" then Except.error "target_root unset"
    else
      match renderFilenamePart scene filePath fileObj settings with
      | none => Except.error "template format failed"
      | some rc => Except.ok (joinOne targetRoot rc)

/-! ## AutoMoveOrganized: stale directory cleanup

remove_empty_parent_dirs is embedded as a pure function from a
read-only emptiness oracle (os.path.isdir conjoined with an empty
os.listdir) to the list of directories it removes, in removal order.
The upward loops are modelled with fuel one larger than the length of
the starting path, which dominates the strictly shortening dirname
chain; the safety theorems below hold for every fuel value. -/

/-- The upward removal loop shared by both branches of
remove_empty_parent_dirs: walk from current towards stop, removing
while directories are empty; returns the removed list and the final
value of current. -/
def removeWalk (emptyDir : String → Bool) : Nat → String → String → List String × String
  | 0, current, _ => ([], current)
  | fuel + 1, current, stop =>
    if current = stop ∨ dirname current = current then ([], current)
    else if emptyDir current then
      let r := removeWalk emptyDir fuel (dirname current) stop
      (current :: r.1, r.2)
    else ([], current)

/-- rel_path.split(os.sep)[0]. -/
def firstSplitComp (s : String) : String :=
  match splitChar '/' s.data with
  | p :: _ => String.mk p
  | [] => ""

/-- The mapped branch of remove_empty_parent_dirs: none makes control
fall through to the generic walk. -/
def mappedCleanup (emptyDir : String → Bool) (directory sourceBase : String) :
    Option (List String) :=
  if sourceBase ≠ "" then
    let nSource := normpath sourceBase
    let nDir := normpath directory
    if pyStartsWith nDir (nSource ++ "/") then
      let rel := relpath nDir nSource
      let firstSubdir := if rel ≠ "" then firstSplitComp rel else ""
      if firstSubdir = "" then some []
      else
        let stopDir := joinOne nSource firstSubdir
        let w := removeWalk emptyDir (nDir.length + 1) nDir stopDir
        let tail := if emptyDir stopDir ∧ w.2 = stopDir then [stopDir] else []
        some (w.1 ++ tail)
    else none
  else none

/-- auto_move_organized.remove_empty_parent_dirs, returning the removed
directories.  A parsed mapping whose directory lies under the source
base walks up to the first-level subdirectory of the source and may
finally remove that stop directory when it became empty; otherwise
control falls through to the generic walk bounded by base_path, which
is skipped when there is no mapping and the move came from outside the
target directory. -/
def remove_empty_parent_dirs (emptyDir : String → Bool)
    (directory basePath mapping : String) (isMovingFromTargetDir : Bool) :
    List String :=
  let dirPath := normpath directory
  let baseN := normpath basePath
  let mappedResult : Option (List String) :=
    if mapping ≠ "" then
      match splitArrowOnce mapping.data with
      | some lr => mappedCleanup emptyDir directory (pyStrip (String.mk lr.1))
      | none => none
    else none
  match mappedResult with
  | some r => r
  | none =>
    if mapping = "" ∧ ¬ isMovingFromTargetDir then []
    else (removeWalk emptyDir (dirPath.length + 1) dirPath baseN).1

/-! ## Binary downloads with retry (_download_binary)

HTTP is modelled by an oracle mapping the attempt number to its
outcome; an effect record collects the requested URL, the directories
created, the files written, the sleeps performed and the number of
attempts made. -/

inductive Attempt where
  | fail
  | ok (contentType : String) (respUrl : String)
deriving DecidableEq, Repr

structure DLLoopOut where
  success : Bool
  writes : List String
  sleeps : List Nat
  attempts : Nat
deriving DecidableEq, Repr

structure DLResult where
  success : Bool
  requestUrl : String
  mkdirs : List String
  writes : List String
  sleeps : List Nat
  attempts : Nat
deriving DecidableEq, Repr

/-- build_absolute_url, identical in auto_move_organized and in the
actorSyncEmby emby_uploader (the former reads the connection out of its
settings dictionary). -/
def build_absolute_url (url : String) (conn : ServerConn) : String :=
  if url = "" then url
  else if pyStartsWith url "http://" ∨ pyStartsWith url "https://" then url
  else
    let base := conn.scheme ++ "://" ++ conn.host
    let base :=
      match conn.port with
      | some p => if p ≠ 0 then base ++ ":" ++ toString p else base
      | none => base
    let url2 := if ¬ pyStartsWith url "/" then "/" ++ url else url
    base ++ url2

/-- Scanner locating the first scheme separator of a URL. -/
def afterSchemeSep : List Char → Option (List Char)
  | ':' :: '/' :: '/' :: rest => some rest
  | _ :: rest => afterSchemeSep rest
  | [] => none

/-- urlparse(u).path, simplified to scheme-and-authority stripping plus
query and fragment removal; only evaluated on concrete URLs. -/
def urlPath (u : String) : String :=
  let body :=
    match afterSchemeSep u.data with
    | some post => post.dropWhile (fun c => c ≠ '/')
    | none => u.data
  String.mk ((body.takeWhile (fun c => c ≠ '?')).takeWhile (fun c => c ≠ '#'))

/-- The retry loop of _download_binary: attempts are numbered from one,
a failed attempt i sleeps 2*i seconds unless it was the last, and the
first success writes one file at the path chosen by finalOf. -/
def dlLoop (att : Nat → Attempt) (finalOf : String → String → String) :
    Nat → Nat → DLLoopOut
  | _, 0 => ⟨false, [], [], 0⟩
  | i, r + 1 =>
    match att i with
    | .ok ct ru => ⟨true, [finalOf ct ru], [], 1⟩
    | .fail =>
      if r = 0 then ⟨false, [], [], 1⟩
      else
        let rest := dlLoop att finalOf (i + 1) r
        ⟨rest.success, rest.writes, 2 * i :: rest.sleeps, rest.attempts + 1⟩

/-- Image extension guessed from the Content-Type header. -/
def guessedImageExt (ct : String) : String :=
  let c := pyLower ct
  if strContains c "image/" then
    if strContains c "jpeg" ∨ strContains c "jpg" then ".jpg"
    else if strContains c "png" then ".png"
    else if strContains c "webp" then ".webp"
    else if strContains c "gif" then ".gif"
    else if strContains c "svg" then ".svg"
    else ""
  else ""

/-- Final write path of the AutoMoveOrganized _download_binary: with
detect_ext it appends the guessed extension (from the Content-Type,
else from the response URL path) unless the destination already ends
with a known image extension. -/
def auto_final_path (dstPath : String) (detectExt : Bool)
    (ct respUrl reqUrl : String) : String :=
  if ¬ detectExt then dstPath
  else
    let guessed := guessedImageExt ct
    let guessed :=
      if guessed = "" then
        (splitext (urlPath (if respUrl ≠ "" then respUrl else reqUrl))).2
      else guessed
    let lower := pyLower dstPath
    let hasKnown := pyEndsWith lower ".jpg" ∨ pyEndsWith lower ".jpeg" ∨
      pyEndsWith lower ".png" ∨ pyEndsWith lower ".webp" ∨ pyEndsWith lower ".gif"
    if guessed ≠ "" ∧ ¬ hasKnown then dstPath ++ guessed else dstPath

/-- Final write path of the actorSyncEmby _download_binary: the guessed
extension is computed but discarded, the destination path is always
used unchanged. -/
def actor_final_path (dstPath : String) (detectExt : Bool)
    (ct respUrl reqUrl : String) : String :=
  if ¬ detectExt then dstPath
  else
    let _guessed :=
      if guessedImageExt ct = "" then
        (splitext (urlPath (if respUrl ≠ "" then respUrl else reqUrl))).2
      else guessedImageExt ct
    dstPath

/-- auto_move_organized._download_binary. -/
def auto_download_binary (url dstPath : String) (conn : ServerConn)
    (detectExt : Bool) (att : Nat → Attempt) : DLResult :=
  if url = "" then ⟨false, "", [], [], [], 0⟩
  else
    let reqUrl := build_absolute_url url conn
    let l := dlLoop att (fun ct ru => auto_final_path dstPath detectExt ct ru reqUrl) 1 3
    ⟨l.success, reqUrl, l.writes.map dirname, l.writes, l.sleeps, l.attempts⟩

/-- actorSyncEmby/emby_uploader._download_binary. -/
def actor_download_binary (url dstPath : String) (conn : ServerConn)
    (detectExt : Bool) (att : Nat → Attempt) : DLResult :=
  if url = "" then ⟨false, "", [], [], [], 0⟩
  else
    let reqUrl := build_absolute_url url conn
    let l := dlLoop att (fun ct ru => actor_final_path dstPath detectExt ct ru reqUrl) 1 3
    ⟨l.success, reqUrl, l.writes.map dirname, l.writes, l.sleeps, l.attempts⟩

/-! ## Scene processing and hook dispatch

move_file_with_suffix_handling touches the filesystem and the GraphQL
API; where only the control flow matters its success is abstracted into
an oracle indexed by the enumeration index and the file object, so that
the guards are proved against every environment. -/

/-- Truthiness of scene.get(organized): a missing key and a false value
both count as not organized. -/
def organizedTruthy : Option Bool → Bool
  | some b => b
  | none => false

/-- The inner _is_file_organized of process_scene (its file argument is
unused by the source body). -/
def is_file_organized (scene : Scene) (settings : Settings) : Bool :=
  if ¬ settings.move_only_organized then true
  else
    match scene.organized with
    | some b => b
    | none => false

/-- Multi-file gating of process_scene. -/
def files_to_process (scene : Scene) (settings : Settings) : List FileObj :=
  if scene.files.length > 1 then
    if settings.multi_file_mode = "skip" then []
    else if settings.multi_file_mode = "primary_only" then scene.files.take 1
    else scene.files
  else scene.files

/-- auto_move_organized.process_scene, returning the files whose move
succeeded (the source returns their count). -/
def process_scene_moved (scene : Scene) (settings : Settings)
    (moveOk : Nat → FileObj → Bool) : List FileObj :=
  if scene.files = [] then []
  else
    (((files_to_process scene settings).enum.filter
      (fun p => is_file_organized scene settings && moveOk p.1 p.2)).map Prod.snd)

inductive HookOutcome where
  | hookDisabled
  | sceneNotFound
  | notOrganized
  | processed (movedCount : Nat)
deriving DecidableEq, Repr

/-- File partition of the hook branch of handle_hook_or_task: some true
means the file needs processing, some false that it is already in the
target location, none that it is skipped.  is_file_in_target_location
is abstracted into the inTargetLoc oracle. -/
def hookFilePartition (settings : Settings) (inTargetLoc : FileObj → Bool)
    (f : FileObj) : Option Bool :=
  if f.path = "" then none
  else
    let mapping := pyStrip settings.source_target_mapping
    if mapping ≠ "" ∧ (splitArrowOnce mapping.data).isSome then
      match splitArrowOnce mapping.data with
      | some lr =>
        let sb := pyStrip (String.mk lr.1)
        let tb := pyStrip (String.mk lr.2)
        if sb ≠ "" ∧ tb ≠ "" then
          if pyStartsWith (normpath f.path) (normpath sb ++ "/") then some true
          else if pyStartsWith (normpath f.path) (normpath tb ++ "/") then some false
          else none
        else none
      | none => none
    else
      if pyStrip settings.target_root ≠ "" ∧ ¬ inTargetLoc f then some true
      else some false

/-- Hook branch of handle_hook_or_task (lines after the scene lookup):
outcome plus the list of files counted as moved.
build_target_path_for_existing_file is abstracted into the
existingTargetOf oracle (none models its RuntimeError), and
regenerate_file_at_target success into regenOk. -/
def handle_hook_scene (sceneOpt : Option Scene) (settings : Settings)
    (moveOk : Nat → FileObj → Bool) (inTargetLoc : FileObj → Bool)
    (existingTargetOf : FileObj → Option String) (regenOk : FileObj → Bool) :
    HookOutcome × List FileObj :=
  if ¬ settings.enable_hook_mode then (.hookDisabled, [])
  else
    match sceneOpt with
    | none => (.sceneNotFound, [])
    | some scene =>
      if ¬ organizedTruthy scene.organized then (.notOrganized, [])
      else
        let parts := scene.files.map
          (fun f => (f, hookFilePartition settings inTargetLoc f))
        let needs := (parts.filter (fun p => p.2 == some true)).map Prod.fst
        let already := (parts.filter (fun p => p.2 == some false)).map Prod.fst
        let moved1 := process_scene_moved { scene with files := needs } settings moveOk
        let gatedAlready :=
          if already.length > 1 then
            if settings.multi_file_mode = "skip" then []
            else if settings.multi_file_mode = "primary_only" then already.take 1
            else already
          else already
        let moved2 := gatedAlready.filter (fun f =>
          f.path ≠ "" &&
          (match existingTargetOf f with
           | some t => normpath f.path ≠ normpath t && regenOk f
           | none => false))
        (.processed (moved1.length + moved2.length), moved1 ++ moved2)

/-- Task branch of handle_hook_or_task: total moved count over all
scenes, with the move_only_organized skip. -/
def task_total_moved (scenes : List Scene) (settings : Settings)
    (moveOk : Scene → Nat → FileObj → Bool) : Nat :=
  (scenes.map (fun sc =>
    if ¬ organizedTruthy sc.organized ∧ settings.move_only_organized then 0
    else (process_scene_moved sc settings (moveOk sc)).length)).sum

/-! ## Detached worker processes (StudioToCollection, actorSyncEmby) -/

inductive PEffect where
  | spawnDetachedWorker (id : Nat)
  | syncUpload (id : Nat)
  | exportLocal (id : Nat)
deriving DecidableEq, Repr

/-- StudioToCollection.start_worker: builds the worker configuration
and launches studio_sync_worker.py through subprocess.Popen with
start_new_session, that is one detached process which keeps running
after the plugin process returns. -/
def start_worker_effects (studioId : Nat) : List PEffect :=
  [PEffect.spawnDetachedWorker studioId]

/-- StudioToCollection hook_handler.handle_create_hook: process effects
after the three lookups (studio, Emby user id, collection) succeed or
fail. -/
def handle_create_hook_effects (studioFound userIdFound collectionFound : Bool)
    (studioId : Nat) : List PEffect :=
  if ¬ studioFound then []
  else if ¬ userIdFound then []
  else if ¬ collectionFound then []
  else start_worker_effects studioId

/-- actorSyncEmby hook_handler._process_hook_performer, after the
performer lookup succeeded.  start_async_worker itself is imported by
hook_handler but absent from the sources present; modelled from the
spec, which describes subprocess-based async workers, as spawning one
detached worker process like StudioToCollection.start_worker. -/
def process_hook_performer_effects (hookMode : Nat) (isCreate : Bool)
    (hasLocalExporter hasEmbyUploader : Bool) (performerId : Nat) : List PEffect :=
  if hookMode = 0 then []
  else if hookMode = 1 then
    if hasLocalExporter then [PEffect.exportLocal performerId] else []
  else if hookMode = 2 then
    if isCreate then [PEffect.spawnDetachedWorker performerId]
    else if hasEmbyUploader then [PEffect.syncUpload performerId] else []
  else if hookMode = 3 then
    (if hasLocalExporter then [PEffect.exportLocal performerId] else []) ++
    (if hasEmbyUploader then
      (if isCreate then [PEffect.spawnDetachedWorker performerId]
       else [PEffect.syncUpload performerId])
     else [])
  else []

/-- Number of detached worker processes started by an effect list. -/
def countSpawns (effs : List PEffect) : Nat :=
  (effs.filter (fun e =>
    match e with
    | PEffect.spawnDetachedWorker _ => true
    | _ => false)).length

/-! ## actor_sync_worker.main: the sleep-and-retry schedule

The worker is modelled from the point where its configuration decoded
and the performer was fetched; each loop iteration either finds the
actor missing in Emby, raises during the upload, or succeeds. -/

inductive WAttempt where
  | notInEmby
  | uploadError
  | uploadSuccess
deriving DecidableEq, Repr

def retryDelays : List Int := [30, 60, 90]

/-- The retry loop of actor_sync_worker.main: exit status, retry
sleeps, iteration count.  max attempts is one more than the number of
retry delays. -/
def workerLoop (att : Nat → WAttempt) (i : Nat) :
    List Int → Nat × List Int × Nat
  | [] =>
    if att i = .uploadSuccess then (0, [], 1) else (1, [], 1)
  | d :: rest =>
    if att i = .uploadSuccess then (0, [], 1)
    else
      let r := workerLoop att (i + 1) rest
      (r.1, d :: r.2.1, r.2.2 + 1)

structure WorkerRun where
  exitCode : Nat
  sleeps : List Int
  refreshedEmby : Bool
  attempts : Nat
deriving DecidableEq, Repr

/-- Stages 1 to 4 of actor_sync_worker.main: sleep the Stash wait,
refresh the Emby library, sleep the Emby wait, then run the retry
loop. -/
def actor_sync_worker_run (stashWait embyWait : Int) (att : Nat → WAttempt) :
    WorkerRun :=
  let l := workerLoop att 0 retryDelays
  ⟨l.1, stashWait :: embyWait :: l.2.1, true, l.2.2⟩

/-- Parsing of the worker_delays configuration string, with the 35 and
70 second defaults restored when int() raises. -/
def parseWorkerDelays (s : String) : Int × Int :=
  let parts := (splitChar ',' s.data).map String.mk
  match parts with
  | [] => (35, 70)
  | p0 :: rest =>
    match pyParseInt p0 with
    | none => (35, 70)
    | some v0 =>
      match rest with
      | [] => (v0, 70)
      | p1 :: _ =>
        match pyParseInt p1 with
        | none => (35, 70)
        | some v1 => (v0, v1)

/-! ## Filesystem effect traces of the move pipeline

Filesystem reads go through a read-only view; the effect trace records
every mutation the Python code would perform, in order. -/

inductive FSEffect where
  | makedirs (dir : String)
  | removeFile (p : String)
  | rmdir (p : String)
  | movePath (src dst : String)
  | writeFile (p : String)
deriving DecidableEq, Repr

structure FSView where
  pathExists : String → Bool
  isDir : String → Bool
  isFile : String → Bool
  listdir : String → List String

def subtitleExts : List String := [".srt", ".ass", ".ssa", ".vtt", ".sub", ".sup"]

def posterExts : List String := [".jpg", ".jpeg", ".png", ".webp", ".gif"]

/-- auto_move_organized.remove_old_metadata: removal of the sibling NFO
file and of each matching poster candidate, all guarded by dry_run. -/
def remove_old_metadata_effects (fs : FSView) (filePath : String)
    (settings : Settings) : List FSEffect :=
  let nfoPath := (splitext filePath).1 ++ ".nfo"
  let e1 :=
    if fs.pathExists nfoPath ∧ ¬ settings.dry_run then
      [FSEffect.removeFile nfoPath]
    else []
  let videoDir := dirname filePath
  let baseName := (splitext (basename filePath)).1
  let posters := posterExts.filterMap (fun ext =>
    let cand := joinOne videoDir (baseName ++ "-poster" ++ ext)
    if fs.pathExists cand ∧ ¬ settings.dry_run then
      some (FSEffect.removeFile cand)
    else none)
  e1 ++ posters

/-- Per-entry body of the directory scan loop in
move_related_subtitle_files. -/
def subtitle_item_effects (fs : FSView) (settings : Settings)
    (srcDir dstDir srcStem dstStem name : String) : List FSEffect :=
  let fullSrc := joinOne srcDir name
  if ¬ fs.isFile fullSrc then []
  else if ¬ (pyLower (splitext name).2 ∈ subtitleExts) then []
  else if ¬ pyStartsWith name srcStem then []
  else
    let suffix := name.drop srcStem.length
    let newName := dstStem ++ suffix
    let fullDst := joinOne dstDir newName
    if fullSrc = fullDst then []
    else if fs.pathExists fullDst then []
    else if settings.dry_run then []
    else [FSEffect.makedirs dstDir, FSEffect.movePath fullSrc fullDst]

/-- auto_move_organized.move_related_subtitle_files: per matching
subtitle the target directory is created and the file moved, unless
dry_run only logs. -/
def move_related_subtitle_files_effects (fs : FSView)
    (srcVideo dstVideo : String) (settings : Settings) : List FSEffect :=
  let srcDir := dirname srcVideo
  let dstDir := dirname dstVideo
  if srcDir = "" ∨ ¬ fs.isDir srcDir then []
  else
    let srcStem := (splitext (basename srcVideo)).1
    let dstStem := (splitext (basename dstVideo)).1
    if srcStem = "" ∨ dstStem = "" then []
    else
      ((fs.listdir srcDir).map
        (subtitle_item_effects fs settings srcDir dstDir srcStem dstStem)).flatten

/-- auto_move_organized.write_nfo_for_scene filesystem effects: the XML
building is effect-free, translate_title_and_plot (whose ai_translate
module is absent from the sources; per the spec it only calls HTTP
endpoints) touches no file, dry_run returns before any write, and the
write creates the parent directory then the NFO file. -/
def write_nfo_for_scene_effects (videoPath : String) (settings : Settings) :
    List FSEffect :=
  if ¬ settings.write_nfo then []
  else
    let nfoPath := (splitext videoPath).1 ++ ".nfo"
    if settings.dry_run then []
    else [FSEffect.makedirs (dirname nfoPath), FSEffect.writeFile nfoPath]

/-- auto_move_organized.download_scene_art: skip without a poster URL
or when a poster already exists, stop before the download under
dry_run, otherwise download (with extension detection) and possibly run
the logo overlay, whose image-processing effects are supplied by the
overlayEffects oracle. -/
def download_scene_art_effects (fs : FSView) (scene : Scene)
    (videoPath : String) (settings : Settings) (att : Nat → Attempt)
    (overlayEffects : List FSEffect) : List FSEffect :=
  if ¬ settings.download_poster then []
  else
    let posterUrl :=
      if scene.paths.screenshot ≠ "" then scene.paths.screenshot
      else scene.paths.webp
    if posterUrl = "" then []
    else
      let videoDir := dirname videoPath
      let baseName := (splitext (basename videoPath)).1
      let posterBase := joinOne videoDir (baseName ++ "-poster")
      if posterExts.any (fun e => fs.pathExists (posterBase ++ e)) then []
      else if settings.dry_run then []
      else
        let absUrl := build_absolute_url posterUrl settings.serverConn
        let dl := auto_download_binary absUrl posterBase settings.serverConn true att
        (dl.mkdirs.map FSEffect.makedirs) ++ (dl.writes.map FSEffect.writeFile) ++
        (if dl.success then overlayEffects else [])

/-- auto_move_organized.move_file_with_suffix_handling as an effect
trace: target computation, the GraphQL move (or, under dry_run, only
the creation of the destination directory), the post-processing of
subtitles, NFO and art, and the non-dry-run cleanup of empty parent
directories (should_clean_directory is the isMovingFromTargetDir
oracle). -/
def move_file_with_suffix_handling_effects (fs : FSView) (scene : Scene)
    (fileObj : FileObj) (settings : Settings) (gqlMoveOk : Bool)
    (att : Nat → Attempt) (overlayEffects : List FSEffect)
    (isMovingFromTargetDir : Bool) : List FSEffect :=
  if fileObj.path = "" then []
  else if fileObj.id = "" then []
  else
    match build_target_path scene fileObj.path fileObj settings with
    | .error _ => []
    | .ok dst =>
      let dstDir := dirname dst
      let dstBase := basename dst
      let finalDst := joinOne dstDir dstBase
      if ¬ settings.dry_run ∧ ¬ gqlMoveOk then []
      else
        let mainEff :=
          if ¬ settings.dry_run then [FSEffect.movePath fileObj.path finalDst]
          else [FSEffect.makedirs dstDir]
        let post :=
          move_related_subtitle_files_effects fs fileObj.path finalDst settings ++
          write_nfo_for_scene_effects finalDst settings ++
          download_scene_art_effects fs scene finalDst settings att overlayEffects
        let cleanup :=
          if ¬ settings.dry_run then
            let mapping := pyStrip settings.source_target_mapping
            let basePath :=
              if mapping ≠ "" ∧ (splitArrowOnce mapping.data).isSome then
                match splitArrowOnce mapping.data with
                | some lr => pyStrip (String.mk lr.2)
                | none => ""
              else pyStrip settings.target_root
            if basePath ≠ "" then
              (remove_empty_parent_dirs
                (fun d => fs.isDir d && (fs.listdir d).isEmpty)
                (dirname fileObj.path) basePath mapping
                isMovingFromTargetDir).map FSEffect.rmdir
            else []
          else []
        mainEff ++ post ++ cleanup

/-! ## Path algebra for the cleanup safety proof (claim C5) -/

theorem findIdxQ_append_shift (p : Char → Bool) (a : List Char)
    (ha : ∀ x ∈ a, p x = false) :
    ∀ (b : List Char) (i : Nat),
      List.findIdx? p (a ++ b) i = List.findIdx? p b (i + a.length) := by
  induction a with
  | nil => intro b i; simp
  | cons x a' ih =>
    intro b i
    have hx : p x = false := ha x (by simp)
    have ha' : ∀ y ∈ a', p y = false := fun y hy => ha y (by simp [hy])
    rw [List.cons_append, List.findIdx?_cons, hx]
    simp only [Bool.false_eq_true, if_false]
    rw [ih ha' b (i + 1)]
    congr 1
    simp only [List.length_cons]
    omega

theorem lastIndexOf_append_sep (xs c : List Char) (hc : '/' ∉ c) :
    lastIndexOf (xs ++ '/' :: c) '/' = (xs.length : Int) := by
  unfold lastIndexOf
  rw [List.reverse_append, List.reverse_cons, List.append_assoc]
  have hrev : ∀ x ∈ c.reverse, (decide (x = '/')) = false := by
    intro x hx
    rw [List.mem_reverse] at hx
    simp only [decide_eq_false_iff_not]
    intro h; subst h; exact hc hx
  rw [findIdxQ_append_shift _ c.reverse hrev _ 0]
  rw [List.singleton_append, List.findIdx?_cons]
  have hd : (decide (('/' : Char) = '/')) = true := rfl
  rw [hd, if_pos rfl]
  simp only [List.length_append, List.length_reverse, List.length_cons]
  omega

/-- dirname of a path extended by one slash-free component is the
path. -/
theorem dirname_extend (X : String) (c : List Char) (hc : c ≠ [])
    (hcs : '/' ∉ c) (hX : X.data.any (fun ch => ch ≠ '/') = true)
    (hXe : pyEndsWith X "/" = false) :
    dirname (X ++ "/" ++ String.mk c) = X := by
  have hdata : (X ++ "/" ++ String.mk c).data = X.data ++ '/' :: c := by
    rw [String.data_append, String.data_append, List.append_assoc]
    rfl
  unfold dirname
  rw [hdata]
  dsimp only
  rw [lastIndexOf_append_sep X.data c hcs]
  have hidx : ((X.data.length : Int) + 1).toNat = X.data.length + 1 := by omega
  rw [hidx]
  have htake : (X.data ++ '/' :: c).take (X.data.length + 1) = X.data ++ ['/'] := by
    have h1 := @List.take_append Char X.data ('/' :: c) 1
    simpa using h1
  rw [htake]
  have hnonslash : ∃ ch ∈ X.data, ch ≠ '/' := by
    rw [List.any_eq_true] at hX
    obtain ⟨ch, hm, hch⟩ := hX
    exact ⟨ch, hm, by simpa using hch⟩
  have hne : X.data ++ ['/'] ≠ [] := by simp
  have hnotrep : X.data ++ ['/'] ≠
      List.replicate (X.data ++ ['/']).length '/' := by
    intro h
    obtain ⟨ch, hm, hch⟩ := hnonslash
    have hmem : ch ∈ List.replicate (X.data ++ ['/']).length '/' := by
      rw [← h]; exact List.mem_append_left _ hm
    exact hch (List.eq_of_mem_replicate hmem)
  rw [if_pos ⟨hne, hnotrep⟩]
  unfold rstripSlashes
  rw [List.reverse_append]
  have hrev1 : (['/'] : List Char).reverse = ['/'] := rfl
  rw [hrev1, List.singleton_append, List.dropWhile_cons]
  have hd : (decide (('/' : Char) = '/')) = true := rfl
  rw [hd, if_pos rfl]
  have hstop : X.data.reverse.dropWhile (fun ch => decide (ch = '/')) =
      X.data.reverse := by
    cases hxd : X.data.reverse with
    | nil => rfl
    | cons y ys =>
      have hy : y ≠ '/' := by
        intro h
        have hpe : pyEndsWith X "/" = true := by
          unfold pyEndsWith
          rw [hxd, h]
          simp [List.isPrefixOf]
        rw [hpe] at hXe
        exact absurd hXe (by simp)
      rw [List.dropWhile_cons]
      simp [hy]
  rw [hstop, List.reverse_reverse]

theorem splitChar_ne_nil (c : Char) (l : List Char) : splitChar c l ≠ [] := by
  induction l with
  | nil => simp [splitChar]
  | cons x xs ih =>
    simp only [splitChar]
    by_cases hx : x = c
    · simp [hx]
    · simp only [if_neg hx]
      cases h : splitChar c xs with
      | nil => exact absurd h ih
      | cons t ts => simp [h]

theorem splitChar_append_sep (a b : List Char) :
    splitChar '/' (a ++ '/' :: b) = splitChar '/' a ++ splitChar '/' b := by
  induction a with
  | nil => simp [splitChar]
  | cons x xs ih =>
    by_cases hx : x = '/'
    · subst hx
      simp [splitChar, ih]
    · rw [List.cons_append]
      simp only [splitChar, if_neg hx, ih]
      cases h : splitChar '/' xs with
      | nil => exact absurd h (splitChar_ne_nil '/' xs)
      | cons t ts => simp [h]

theorem splitChar_no_sep (c : List Char) (hc : '/' ∉ c) :
    splitChar '/' c = [c] := by
  induction c with
  | nil => rfl
  | cons x xs ih =>
    have hx : x ≠ '/' := fun h => hc (by simp [h])
    have hxs : '/' ∉ xs := fun h => hc (by simp [h])
    simp only [splitChar, if_neg hx, ih hxs]

theorem splitChar_joinComps (comps : List (List Char)) (hne : comps ≠ [])
    (hok : ∀ c ∈ comps, '/' ∉ c) :
    splitChar '/' (joinComps comps) = comps := by
  induction comps with
  | nil => exact absurd rfl hne
  | cons c rest ih =>
    cases rest with
    | nil => exact splitChar_no_sep c (hok c (by simp))
    | cons c2 rest2 =>
      have hih := ih (List.cons_ne_nil c2 rest2)
        (fun x hx => hok x (List.mem_cons_of_mem c hx))
      simp only [joinComps, splitChar_append_sep,
        splitChar_no_sep c (hok c (List.mem_cons_self c (c2 :: rest2))), hih]
      rfl

theorem commonPrefixLen_self_append (l m : List (List Char)) :
    commonPrefixLen l (l ++ m) = l.length := by
  induction l with
  | nil => rfl
  | cons a as ih => simp [commonPrefixLen, ih]

theorem isPrefixOf_append_self (l m : List Char) :
    l.isPrefixOf (l ++ m) = true := by
  induction l with
  | nil => simp [List.isPrefixOf]
  | cons x xs ih => simpa [List.isPrefixOf] using ih

/-- joinComps distributes over appending one component. -/
theorem joinComps_append_last (cs : List (List Char)) (c : List Char)
    (h : cs ≠ []) :
    joinComps (cs ++ [c]) = joinComps cs ++ '/' :: c := by
  induction cs with
  | nil => exact absurd rfl h
  | cons a rest ih =>
    cases rest with
    | nil => rfl
    | cons b rest2 =>
      rw [List.cons_append]
      simp only [joinComps, List.append_eq]
      simp only [List.cons_append] at ih
      rw [ih (List.cons_ne_nil b rest2)]
      simp

theorem joinComps_ne_nil (c0 : List Char) (rest : List (List Char))
    (h : c0 ≠ []) : joinComps (c0 :: rest) ≠ [] := by
  cases rest with
  | nil => simpa [joinComps]
  | cons b r2 =>
    simp only [joinComps]
    cases c0 with
    | nil => exact absurd rfl h
    | cons x xs => simp

/-- A base directory extended by a nonempty component chain. -/
def pathOf (X : String) (cs : List (List Char)) : String :=
  X ++ "/" ++ String.mk (joinComps cs)

theorem pathOf_data (X : String) (cs : List (List Char)) :
    (pathOf X cs).data = X.data ++ '/' :: joinComps cs := by
  unfold pathOf
  rw [String.data_append, String.data_append, List.append_assoc]
  rfl

theorem pathOf_length (X : String) (cs : List (List Char)) :
    (pathOf X cs).length = X.length + 1 + (joinComps cs).length := by
  unfold pathOf
  rw [String.length_append, String.length_append]
  rfl

theorem pathOf_ne_base (X : String) (cs : List (List Char)) :
    pathOf X cs ≠ X := by
  intro h
  have hlen := congrArg String.length h
  rw [pathOf_length] at hlen
  omega

theorem pathOf_append_last (X : String) (cs : List (List Char))
    (c : List Char) (h : cs ≠ []) :
    pathOf X (cs ++ [c]) = pathOf X cs ++ "/" ++ String.mk c := by
  apply String.ext
  rw [pathOf_data, String.data_append, String.data_append, pathOf_data,
    joinComps_append_last cs c h]
  simp

theorem reverse_head_joinComps (cs : List (List Char)) (hne : cs ≠ [])
    (hok : ∀ c ∈ cs, c ≠ [] ∧ '/' ∉ c) :
    ∃ y ys, (joinComps cs).reverse = y :: ys ∧ y ≠ '/' := by
  induction cs with
  | nil => exact absurd rfl hne
  | cons c rest ih =>
    cases rest with
    | nil =>
      obtain ⟨hc, hcs⟩ := hok c (by simp)
      cases hr : c.reverse with
      | nil => exact absurd (by simpa using hr) hc
      | cons y ys =>
        refine ⟨y, ys, by simpa [joinComps] using hr, ?_⟩
        intro h
        apply hcs
        rw [← List.mem_reverse, hr, h]
        simp
    | cons c2 rest2 =>
      obtain ⟨y, ys, hrev, hy⟩ := ih (List.cons_ne_nil c2 rest2)
        (fun x hx => hok x (List.mem_cons_of_mem c hx))
      refine ⟨y, ys ++ '/' :: c.reverse, ?_, hy⟩
      simp only [joinComps, List.reverse_append, List.reverse_cons, hrev]
      simp

theorem pathOf_not_endswith_slash (X : String) (cs : List (List Char))
    (hne : cs ≠ []) (hok : ∀ c ∈ cs, c ≠ [] ∧ '/' ∉ c) :
    pyEndsWith (pathOf X cs) "/" = false := by
  obtain ⟨y, ys, hrev, hy⟩ := reverse_head_joinComps cs hne hok
  unfold pyEndsWith
  have hdata : (pathOf X cs).data.reverse = y :: (ys ++ '/' :: X.data.reverse) := by
    rw [pathOf_data, List.reverse_append, List.reverse_cons, hrev]
    simp
  rw [hdata]
  have hsl : ("/" : String).data.reverse = ['/'] := rfl
  rw [hsl]
  simp [List.isPrefixOf, Ne.symm hy]

theorem pathOf_any_nonslash (X : String) (cs : List (List Char))
    (hX : X.data.any (fun ch => ch ≠ '/') = true) :
    (pathOf X cs).data.any (fun ch => ch ≠ '/') = true := by
  rw [pathOf_data, List.any_append, hX]
  rfl

theorem dirname_pathOf (X : String) (cs : List (List Char))
    (h2 : 2 ≤ cs.length) (hok : ∀ c ∈ cs, c ≠ [] ∧ '/' ∉ c)
    (hX : X.data.any (fun ch => ch ≠ '/') = true)
    (hXe : pyEndsWith X "/" = false) :
    dirname (pathOf X cs) = pathOf X cs.dropLast := by
  have hne : cs ≠ [] := by
    intro h; rw [h] at h2; simp at h2
  have hsplitLast : cs.dropLast ++ [cs.getLast hne] = cs :=
    List.dropLast_append_getLast hne
  have hinitne : cs.dropLast ≠ [] := by
    have := List.length_dropLast cs
    intro h
    rw [h] at this
    simp at this
    omega
  have hlast := hok (cs.getLast hne) (List.getLast_mem hne)
  rw [← hsplitLast, pathOf_append_last X cs.dropLast _ hinitne,
    List.dropLast_concat]
  have hsub : ∀ c ∈ cs.dropLast, c ≠ [] ∧ '/' ∉ c := by
    intro c hc
    apply hok
    rw [← hsplitLast]
    exact List.mem_append_left _ hc
  exact dirname_extend (pathOf X cs.dropLast) (cs.getLast hne) hlast.1 hlast.2
    (pathOf_any_nonslash X cs.dropLast hX)
    (pathOf_not_endswith_slash X cs.dropLast hinitne hsub)

theorem removeWalk_mem_empty (e : String → Bool) :
    ∀ (fuel : Nat) (cur stop x : String),
      x ∈ (removeWalk e fuel cur stop).1 → e x = true := by
  intro fuel
  induction fuel with
  | zero => intro cur stop x hx; simp [removeWalk] at hx
  | succ fuel ih =>
    intro cur stop x hx
    rw [removeWalk] at hx
    by_cases hguard : cur = stop ∨ dirname cur = cur
    · rw [if_pos hguard] at hx; simp at hx
    · rw [if_neg hguard] at hx
      by_cases hemp : e cur = true
      · rw [if_pos hemp] at hx
        simp only [List.mem_cons] at hx
        cases hx with
        | inl hx => rw [hx]; exact hemp
        | inr hx => exact ih (dirname cur) stop x hx
      · rw [if_neg hemp] at hx; simp at hx

theorem removeWalk_mem_ne_stop (e : String → Bool) :
    ∀ (fuel : Nat) (cur stop x : String),
      x ∈ (removeWalk e fuel cur stop).1 → x ≠ stop := by
  intro fuel
  induction fuel with
  | zero => intro cur stop x hx; simp [removeWalk] at hx
  | succ fuel ih =>
    intro cur stop x hx
    rw [removeWalk] at hx
    by_cases hguard : cur = stop ∨ dirname cur = cur
    · rw [if_pos hguard] at hx; simp at hx
    · rw [if_neg hguard] at hx
      by_cases hemp : e cur = true
      · rw [if_pos hemp] at hx
        simp only [List.mem_cons] at hx
        cases hx with
        | inl hx =>
          rw [hx]
          intro h
          exact hguard (Or.inl h)
        | inr hx => exact ih (dirname cur) stop x hx
      · rw [if_neg hemp] at hx; simp at hx

/-- Every directory removed by the upward walk started strictly below
the stop directory lies at least two components below the base. -/
theorem removeWalk_chain (e : String → Bool) (X : String)
    (hX : X.data.any (fun ch => ch ≠ '/') = true)
    (hXe : pyEndsWith X "/" = false) :
    ∀ (fuel : Nat) (cs : List (List Char)), cs ≠ [] →
      (∀ c ∈ cs, c ≠ [] ∧ '/' ∉ c) →
      ∀ x ∈ (removeWalk e fuel (pathOf X cs) (pathOf X (cs.take 1))).1,
        ∃ k, 2 ≤ k ∧ k ≤ cs.length ∧ x = pathOf X (cs.take k) := by
  intro fuel
  induction fuel with
  | zero => intro cs _ _ x hx; simp [removeWalk] at hx
  | succ fuel ih =>
    intro cs hne hok x hx
    rw [removeWalk] at hx
    by_cases hguard : pathOf X cs = pathOf X (cs.take 1) ∨
        dirname (pathOf X cs) = pathOf X cs
    · rw [if_pos hguard] at hx; simp at hx
    · have h2 : 2 ≤ cs.length := by
        rcases cs with _ | ⟨c0, _ | ⟨c1, rest⟩⟩
        · exact absurd rfl hne
        · exact absurd (Or.inl (by simp)) hguard
        · simp
      rw [if_neg hguard] at hx
      by_cases hemp : e (pathOf X cs) = true
      · rw [if_pos hemp] at hx
        simp only [List.mem_cons] at hx
        cases hx with
        | inl hx =>
          exact ⟨cs.length, h2, le_refl _, by rw [hx, List.take_length]⟩
        | inr hx =>
          have hddrop : dirname (pathOf X cs) = pathOf X cs.dropLast :=
            dirname_pathOf X cs h2 hok hX hXe
          have hstop : pathOf X (cs.take 1) = pathOf X (cs.dropLast.take 1) := by
            rw [List.dropLast_eq_take, List.take_take]
            congr 2
            omega
          rw [hddrop, hstop] at hx
          have hdne : cs.dropLast ≠ [] := by
            have := List.length_dropLast cs
            intro h
            rw [h] at this
            simp at this
            omega
          have hdok : ∀ c ∈ cs.dropLast, c ≠ [] ∧ '/' ∉ c := by
            intro c hc
            apply hok
            rw [List.dropLast_eq_take] at hc
            exact List.take_subset _ _ hc
          obtain ⟨k, hk2, hkle, hkx⟩ := ih cs.dropLast hdne hdok x hx
          refine ⟨k, hk2, ?_, ?_⟩
          · have := List.length_dropLast cs
            omega
          · rw [hkx, List.dropLast_eq_take, List.take_take]
            congr 2
            have := List.length_dropLast cs
            rw [List.length_dropLast] at hkle
            omega
      · rw [if_neg hemp] at hx; simp at hx

theorem relpath_pathOf (S : String) (comps : List (List Char))
    (hSn : normpath S = S)
    (hdn : normpath (pathOf S comps) = pathOf S comps)
    (hne : comps ≠ []) (hok : ∀ c ∈ comps, c ≠ [] ∧ '/' ∉ c) :
    relpath (pathOf S comps) S = String.mk (joinComps comps) := by
  unfold relpath
  rw [hdn, hSn, pathOf_data, splitChar_append_sep,
    splitChar_joinComps comps hne (fun c hc => (hok c hc).2),
    List.filter_append]
  have hfc : comps.filter (fun x => x ≠ []) = comps :=
    List.filter_eq_self.mpr (fun c hc => by simpa using (hok c hc).1)
  rw [hfc]
  dsimp only
  rw [commonPrefixLen_self_append]
  rw [Nat.sub_self, List.replicate_zero, List.nil_append, List.drop_left]
  rw [if_neg]
  exact hne

theorem string_mk_ne_empty (l : List Char) (h : l ≠ []) :
    String.mk l ≠ "" := by
  intro he
  exact h (congrArg String.data he)

theorem firstSplitComp_joinComps (c0 : List Char) (rest : List (List Char))
    (hok : ∀ c ∈ c0 :: rest, '/' ∉ c) :
    firstSplitComp (String.mk (joinComps (c0 :: rest))) = String.mk c0 := by
  unfold firstSplitComp
  have hdata : (String.mk (joinComps (c0 :: rest))).data =
      joinComps (c0 :: rest) := rfl
  rw [hdata, splitChar_joinComps _ (List.cons_ne_nil c0 rest) hok]

theorem joinOne_extend (S : String) (c0 : List Char) (hc0 : c0 ≠ [])
    (hc0s : '/' ∉ c0) (hS : S ≠ "") (hSe : pyEndsWith S "/" = false) :
    joinOne S (String.mk c0) = S ++ "/" ++ String.mk c0 := by
  unfold joinOne
  have h1 : pyStartsWith (String.mk c0) "/" = false := by
    unfold pyStartsWith
    cases c0 with
    | nil => exact absurd rfl hc0
    | cons x xs =>
      have hx : x ≠ '/' := fun h => hc0s (by simp [h])
      have hsl : ("/" : String).data = ['/'] := rfl
      rw [hsl]
      simp [List.isPrefixOf, Ne.symm hx]
  rw [h1]
  simp only [Bool.false_eq_true, if_false]
  rw [if_neg]
  intro h
  cases h with
  | inl h => exact hS h
  | inr h => rw [h] at hSe; exact absurd hSe (by simp)

theorem pathOf_startsWith (S : String) (comps : List (List Char)) :
    pyStartsWith (pathOf S comps) (S ++ "/") = true := by
  unfold pyStartsWith
  rw [pathOf_data, String.data_append]
  have hsl : ("/" : String).data = ['/'] := rfl
  rw [hsl, show S.data ++ '/' :: joinComps comps =
    (S.data ++ ['/']) ++ joinComps comps by simp]
  exact isPrefixOf_append_self _ _

/-- The mapped cleanup branch under a well-formed source base and a
directory strictly below it: it fires, removes only empty directories,
and never removes the source base itself. -/
theorem mappedCleanup_spec (e : String → Bool) (S : String)
    (comps : List (List Char))
    (hSne : S ≠ "") (hSn : normpath S = S)
    (hSe : pyEndsWith S "/" = false)
    (hSx : S.data.any (fun ch => ch ≠ '/') = true)
    (hne : comps ≠ []) (hok : ∀ c ∈ comps, c ≠ [] ∧ '/' ∉ c)
    (hdn : normpath (pathOf S comps) = pathOf S comps) :
    ∃ rs, mappedCleanup e (pathOf S comps) S = some rs ∧
      S ∉ rs ∧ (∀ x ∈ rs, e x = true) := by
  obtain ⟨c0, rest, rfl⟩ : ∃ c0 rest, comps = c0 :: rest := by
    cases comps with
    | nil => exact absurd rfl hne
    | cons a b => exact ⟨a, b, rfl⟩
  have hc0 := hok c0 (by simp)
  have hokS : ∀ c ∈ c0 :: rest, '/' ∉ c := fun c hc => (hok c hc).2
  have hjne : joinComps (c0 :: rest) ≠ [] := joinComps_ne_nil c0 rest hc0.1
  unfold mappedCleanup
  rw [if_pos hSne]
  dsimp only
  rw [hSn, hdn, if_pos (pathOf_startsWith S (c0 :: rest)),
    relpath_pathOf S (c0 :: rest) hSn hdn hne hok,
    if_pos (string_mk_ne_empty _ hjne),
    firstSplitComp_joinComps c0 rest hokS,
    if_neg (by simpa using string_mk_ne_empty c0 hc0.1),
    joinOne_extend S c0 hc0.1 hc0.2 hSne hSe]
  have hstop : S ++ "/" ++ String.mk c0 = pathOf S ((c0 :: rest).take 1) := by
    unfold pathOf
    rfl
  rw [hstop]
  set stop := pathOf S ((c0 :: rest).take 1) with hstopdef
  set w := removeWalk e ((pathOf S (c0 :: rest)).length + 1)
    (pathOf S (c0 :: rest)) stop with hwdef
  refine ⟨_, rfl, ?_, ?_⟩
  · intro hmem
    rw [List.mem_append] at hmem
    cases hmem with
    | inl hmem =>
      obtain ⟨k, _, _, hk⟩ := removeWalk_chain e S hSx hSe _ (c0 :: rest)
        hne hok S hmem
      exact pathOf_ne_base S _ hk.symm
    | inr hmem =>
      split at hmem
      · rw [List.mem_singleton] at hmem
        exact pathOf_ne_base S _ hmem.symm
      · simp at hmem
  · intro x hx
    rw [List.mem_append] at hx
    cases hx with
    | inl hx => exact removeWalk_mem_empty e _ _ _ x hx
    | inr hx =>
      split at hx
      · rw [List.mem_singleton] at hx
        rename_i hcond
        rw [hx]
        exact hcond.1
      · simp at hx

theorem mappedCleanup_mem_empty (e : String → Bool) (d s : String)
    (rs : List String) (h : mappedCleanup e d s = some rs) :
    ∀ x ∈ rs, e x = true := by
  unfold mappedCleanup at h
  split at h
  · dsimp only at h
    split at h
    · generalize hrel : relpath (normpath d) (normpath s) = rel at h
      generalize hfs : (if rel ≠ "" then firstSplitComp rel else "") = fsd at h
      generalize hstop : joinOne (normpath s) fsd = stop at h
      generalize hw : removeWalk e ((normpath d).length + 1) (normpath d) stop
        = w at h
      split at h
      · cases h
        simp
      · cases h
        intro x hx
        rw [List.mem_append] at hx
        cases hx with
        | inl hx =>
          rw [← hw] at hx
          exact removeWalk_mem_empty e _ _ _ x hx
        | inr hx =>
          split at hx
          · rw [List.mem_singleton] at hx
            rename_i hcond
            rw [hx]
            exact hcond.1
          · simp at hx
    · cases h
  · cases h

/-! ## Claim C5: cleanup never deletes its boundary directories -/

/-- C5: remove_empty_parent_dirs removes only directories its emptiness
oracle reports empty; with a parsed SRC to DST mapping and a directory
lying under the normalised source base, the walk stops at the
first-level subdirectory of the source (which may itself be removed
only when empty) and in particular never removes the source base
itself; and the generic branch never removes its (normalised) base_path
argument. -/
theorem c5_cleanup_boundaries
    (emptyDir : String → Bool) (basePath mapping : String) (isMoving : Bool)
    (S : String) (l r : List Char) (comps : List (List Char))
    (hsplit : splitArrowOnce mapping.data = some (l, r))
    (hmne : mapping ≠ "")
    (hS : pyStrip (String.mk l) = S)
    (hSne : S ≠ "") (hSn : normpath S = S)
    (hSe : pyEndsWith S "/" = false)
    (hSx : S.data.any (fun ch => ch ≠ '/') = true)
    (hne : comps ≠ []) (hok : ∀ c ∈ comps, c ≠ [] ∧ '/' ∉ c)
    (hdn : normpath (pathOf S comps) = pathOf S comps) :
    (∀ e' d' b' m' mv' x, x ∈ remove_empty_parent_dirs e' d' b' m' mv' →
      e' x = true) ∧
    S ∉ remove_empty_parent_dirs emptyDir (pathOf S comps) basePath
      mapping isMoving ∧
    (∀ e' d' b' mv', normpath b' = b' →
      b' ∉ remove_empty_parent_dirs e' d' b' "" mv') := by
  refine ⟨?_, ?_, ?_⟩
  · intro e' d' b' m' mv' x hx
    unfold remove_empty_parent_dirs at hx
    dsimp only at hx
    by_cases hm : m' ≠ ""
    · rw [if_pos hm] at hx
      cases hsa : splitArrowOnce m'.data with
      | some lr =>
        rw [hsa] at hx
        dsimp only at hx
        cases hmc : mappedCleanup e' d' (pyStrip (String.mk lr.1)) with
        | some rs =>
          rw [hmc] at hx
          exact mappedCleanup_mem_empty e' d' _ rs hmc x hx
        | none =>
          rw [hmc] at hx
          dsimp only at hx
          by_cases hg : m' = "" ∧ ¬ mv' = true
          · rw [if_pos hg] at hx; simp at hx
          · rw [if_neg hg] at hx
            exact removeWalk_mem_empty e' _ _ _ x hx
      | none =>
        rw [hsa] at hx
        dsimp only at hx
        by_cases hg : m' = "" ∧ ¬ mv' = true
        · rw [if_pos hg] at hx; simp at hx
        · rw [if_neg hg] at hx
          exact removeWalk_mem_empty e' _ _ _ x hx
    · rw [if_neg hm] at hx
      dsimp only at hx
      by_cases hg : m' = "" ∧ ¬ mv' = true
      · rw [if_pos hg] at hx; simp at hx
      · rw [if_neg hg] at hx
        exact removeWalk_mem_empty e' _ _ _ x hx
  · unfold remove_empty_parent_dirs
    dsimp only
    rw [if_pos hmne, hsplit]
    dsimp only
    rw [hS]
    obtain ⟨rs, heq, hnotin, _⟩ :=
      mappedCleanup_spec emptyDir S comps hSne hSn hSe hSx hne hok hdn
    rw [heq]
    exact hnotin
  · intro e' d' b' mv' hb hmem
    unfold remove_empty_parent_dirs at hmem
    dsimp only at hmem
    rw [if_neg (by simp)] at hmem
    dsimp only at hmem
    by_cases hg : ("" : String) = "" ∧ ¬ mv' = true
    · rw [if_pos hg] at hmem; simp at hmem
    · rw [if_neg hg] at hmem
      rw [hb] at hmem
      exact removeWalk_mem_ne_stop e' _ _ _ b' hmem rfl

theorem c5_witness :
    "/data/src" ∉ remove_empty_parent_dirs (fun _ => true)
      (pathOf "/data/src" ["sub1".data, "deep".data]) "/data/dst"
      "/data/src->/data/dst" false :=
  (c5_cleanup_boundaries (fun _ => true) "/data/dst" "/data/src->/data/dst"
    false "/data/src" "/data/src".data "/data/dst".data
    ["sub1".data, "deep".data]
    (by decide) (by decide) (by decide) (by decide) (by decide) (by decide)
    (by decide) (by decide) (by decide) (by decide)).2.1

/-! ## Sample inputs for the witnesses -/

def sampleFile1 : FileObj := ⟨"f1", "/data/src/sub1/deep/movie.mp4", some 1920, some 1080⟩

def sampleFile2 : FileObj := ⟨"f2", "/data/src/sub1/deep/movie2.mp4", some 1280, some 720⟩

def sampleScene : Scene :=
  { id := "12", title := "My Title", date := "2025-01-02", code := "ABC-123",
    director := "", studio := some ⟨"Stu/dio", "7"⟩, performers := ["A", "B"],
    tags := ["t1"], groups := [], rating100 := some 85, stashIds := [],
    organized := some true, files := [sampleFile1, sampleFile2],
    paths := ⟨"/scene/12/screenshot", ""⟩ }

def sampleConn : ServerConn := ⟨"http", "localhost", some 9999⟩

def sampleSettings : Settings :=
  { source_target_mapping := "/data/src->/data/dst",
    filename_template := "{studio}/{scene_date} {scene_title}",
    target_root := "", multi_file_mode := "all", move_only_organized := true,
    dry_run := false, enable_hook_mode := true, write_nfo := true,
    download_poster := true, serverConn := sampleConn }

/-! ## Claim C1: mapped target path construction -/

/-- Claim C1, stated from the specification side: the filename obtained
by substituting the scene variables into the filename template, with
slashes and backslashes in variable values replaced by underscores,
each nonempty segment sanitised by safe_segment and the segments
rejoined, the original extension appended when the template result has
none, and the multi-file suffix applied by apply_multi_file_suffix (an
all-separator substitution result falls back to the original
basename). -/
def claimedFilename (scene : Scene) (filePath : String) (fileObj : FileObj)
    (settings : Settings) : Option String :=
  match pyFormat (pyStrip settings.filename_template)
      (sanitizeVarsForPath (build_template_vars scene filePath (some fileObj))) with
  | none => none
  | some t =>
    let segs := ((splitSlashRuns t).filter (fun p => p ≠ "")).map safe_segment
    let joined :=
      match segs with
      | [] => basename filePath
      | s :: ss => ss.foldl joinOne s
    let ext := String.mk ((splitext (basename filePath)).2.data.dropWhile
      (fun c => c = '.'))
    let withExt :=
      if (splitext joined).2 = "" ∧ ext ≠ "" then joined ++ "." ++ ext else joined
    some (apply_multi_file_suffix withExt scene fileObj settings)

theorem varAsStr_original_basename (scene : Scene) (filePath : String)
    (fo : Option FileObj) :
    varAsStr (build_template_vars scene filePath fo) "original_basename" =
      basename filePath := rfl

theorem varAsStr_ext (scene : Scene) (filePath : String) (fo : Option FileObj) :
    varAsStr (build_template_vars scene filePath fo) "ext" =
      String.mk ((splitext (basename filePath)).2.data.dropWhile
        (fun c => c = '.')) := rfl

theorem renderFilenamePart_eq_claimedFilename (scene : Scene)
    (filePath : String) (fileObj : FileObj) (settings : Settings) :
    renderFilenamePart scene filePath fileObj settings =
      claimedFilename scene filePath fileObj settings := rfl

/-- C1: with a mapping of the form SRC arrow DST whose two sides are
nonempty after stripping, and a file path lying under the normalised
SRC directory, build_target_path returns the normalised join of DST,
the first component of the file path relative to SRC, and the templated
filename of claimedFilename. -/
theorem c1_build_target_path_mapped
    (scene : Scene) (filePath : String) (fileObj : FileObj) (settings : Settings)
    (l r : List Char) (f : String)
    (hsplit : splitArrowOnce (pyStrip settings.source_target_mapping).data =
      some (l, r))
    (hmne : pyStrip settings.source_target_mapping ≠ "")
    (hsne : pyStrip (String.mk l) ≠ "")
    (htne : pyStrip (String.mk r) ≠ "")
    (hunder : pyStartsWith (normpath filePath)
      (normpath (pyStrip (String.mk l)) ++ "/") = true)
    (hf : claimedFilename scene filePath fileObj settings = some f) :
    build_target_path scene filePath fileObj settings =
      Except.ok (normpath (joinOne
        (joinOne (pyStrip (String.mk r))
          (firstLevelDir (relpath filePath (normpath (pyStrip (String.mk l))))))
        f)) := by
  unfold build_target_path
  rw [if_pos hmne, hsplit]
  dsimp only
  rw [if_pos ⟨hsne, htne⟩, if_pos (Or.inl hunder),
    renderFilenamePart_eq_claimedFilename, hf]

theorem c1_witness :
    build_target_path sampleScene "/data/src/sub1/deep/movie.mp4" sampleFile1
        sampleSettings =
      Except.ok (normpath (joinOne
        (joinOne (pyStrip (String.mk "/data/dst".data))
          (firstLevelDir (relpath "/data/src/sub1/deep/movie.mp4"
            (normpath (pyStrip (String.mk "/data/src".data))))))
        "Stu_dio/2025-01-02 My Title-cd1.mp4")) :=
  c1_build_target_path_mapped sampleScene "/data/src/sub1/deep/movie.mp4"
    sampleFile1 sampleSettings "/data/src".data "/data/dst".data
    "Stu_dio/2025-01-02 My Title-cd1.mp4"
    (by decide) (by decide) (by decide) (by decide) (by decide) (by decide)

/-! ## Claim C6: determinism of the path templating -/

/-- C6: the path-templating logic is deterministic: two runs of
build_target_path, and of build_template_vars, on equal scenes, file
paths, file objects and settings return equal target paths and equal
variable maps.  The embedding shows these functions read nothing but
their arguments. -/
theorem c6_path_templating_deterministic
    (s1 s2 : Scene) (p1 p2 : String) (f1 f2 : FileObj) (st1 st2 : Settings)
    (o1 o2 : Option FileObj)
    (hs : s1 = s2) (hp : p1 = p2) (hf : f1 = f2) (hst : st1 = st2) (ho : o1 = o2) :
    build_target_path s1 p1 f1 st1 = build_target_path s2 p2 f2 st2 ∧
    build_template_vars s1 p1 o1 = build_template_vars s2 p2 o2 := by
  subst hs; subst hp; subst hf; subst hst; subst ho
  exact ⟨rfl, rfl⟩

theorem c6_witness :
    build_target_path sampleScene "/data/src/sub1/deep/movie.mp4" sampleFile1
        sampleSettings =
      build_target_path sampleScene "/data/src/sub1/deep/movie.mp4" sampleFile1
        sampleSettings ∧
    build_template_vars sampleScene "/data/src/sub1/deep/movie.mp4"
        (some sampleFile1) =
      build_template_vars sampleScene "/data/src/sub1/deep/movie.mp4"
        (some sampleFile1) :=
  c6_path_templating_deterministic sampleScene sampleScene
    "/data/src/sub1/deep/movie.mp4" "/data/src/sub1/deep/movie.mp4"
    sampleFile1 sampleFile1 sampleSettings sampleSettings
    (some sampleFile1) (some sampleFile1) rfl rfl rfl rfl rfl

/-! ## Claim C2: the multi-file suffix -/

/-- Index of the last occurrence of an id, mirroring the overwriting
dictionary comprehension of apply_multi_file_suffix. -/
def lastIndexNat : List String → String → Option Nat
  | [], _ => none
  | a :: as, x =>
    match lastIndexNat as x with
    | some k => some (k + 1)
    | none => if a = x then some 0 else none

theorem fileIdIndex_fold_spec (fid : String) (files : List FileObj) :
    ∀ (n : Nat) (o : Option Nat),
      (files.foldl
        (fun (st : Nat × Option Nat) f =>
          (st.1 + 1, if f.id = fid then some st.1 else st.2)) (n, o)).2 =
      (match lastIndexNat (files.map FileObj.id) fid with
       | some k => some (n + k)
       | none => o) := by
  induction files with
  | nil => intro n o; rfl
  | cons f fs ih =>
    intro n o
    simp only [List.foldl, List.map, lastIndexNat]
    rw [ih]
    cases h : lastIndexNat (fs.map FileObj.id) fid with
    | some k =>
      simp only [h]
      congr 1
      omega
    | none =>
      by_cases hf : f.id = fid <;> simp [h, hf]

theorem fileIdIndex_eq_lastIndex (files : List FileObj) (fid : String) :
    fileIdIndex files fid =
      (match lastIndexNat (files.map FileObj.id) fid with
       | some k => k
       | none => 0) := by
  unfold fileIdIndex
  rw [fileIdIndex_fold_spec]
  cases lastIndexNat (files.map FileObj.id) fid <;> simp

theorem lastIndexNat_eq_none (l : List String) (x : String) (h : x ∉ l) :
    lastIndexNat l x = none := by
  induction l with
  | nil => rfl
  | cons a as ih =>
    simp only [List.mem_cons, not_or] at h
    simp [lastIndexNat, ih h.2, Ne.symm h.1]

theorem lastIndexNat_nodup (l : List String) (x : String) (h : l.Nodup) :
    lastIndexNat l x = if x ∈ l then some (List.indexOf x l) else none := by
  induction l with
  | nil => simp [lastIndexNat]
  | cons a as ih =>
    rw [List.nodup_cons] at h
    by_cases hx : x = a
    · subst hx
      simp [lastIndexNat, lastIndexNat_eq_none as x h.1, List.indexOf_cons_self]
    · rw [lastIndexNat, ih h.2]
      by_cases hm : x ∈ as
      · simp [hm, hx, List.indexOf_cons_ne as (Ne.symm hx), Nat.succ_eq_add_one]
      · have : x ∉ a :: as := by simp [hx, hm]
        simp [hm, hx, this, Ne.symm hx]

/-- C2: apply_multi_file_suffix returns its filename unchanged when the
multi-file mode is not all or the scene has at most one file; with mode
all and two or more files (whose ids are distinct, as they are database
keys in the source system) it inserts -cd(i+1) between stem and
extension, where i is the index of the file id in the file list, zero
when the id does not occur. -/
theorem c2_apply_multi_file_suffix (filename : String) (scene : Scene)
    (fileObj : FileObj) (settings : Settings) :
    (settings.multi_file_mode ≠ "all" →
      apply_multi_file_suffix filename scene fileObj settings = filename) ∧
    (scene.files.length ≤ 1 →
      apply_multi_file_suffix filename scene fileObj settings = filename) ∧
    (settings.multi_file_mode = "all" → 2 ≤ scene.files.length →
      (scene.files.map FileObj.id).Nodup →
      apply_multi_file_suffix filename scene fileObj settings =
        (splitext filename).1 ++ "-cd" ++
          toString ((if fileObj.id ∈ scene.files.map FileObj.id then
            List.indexOf fileObj.id (scene.files.map FileObj.id) else 0) + 1) ++
          (splitext filename).2) := by
  refine ⟨?_, ?_, ?_⟩
  · intro h
    simp [apply_multi_file_suffix, h]
  · intro h
    simp [apply_multi_file_suffix, h]
  · intro hmode hlen hnodup
    have hlen' : ¬ scene.files.length ≤ 1 := by omega
    simp only [apply_multi_file_suffix, hmode, hlen', if_neg, ite_false,
      not_true_eq_false, ne_eq, not_false_eq_true, if_false]
    rw [fileIdIndex_eq_lastIndex, lastIndexNat_nodup _ _ hnodup]
    by_cases hm : fileObj.id ∈ scene.files.map FileObj.id <;> simp [hm]

theorem c2_witness :
    (sampleSettings.multi_file_mode = "all" ∧ 2 ≤ sampleScene.files.length ∧
      (sampleScene.files.map FileObj.id).Nodup) ∧
    apply_multi_file_suffix "a.mp4" sampleScene sampleFile2 sampleSettings =
      (splitext "a.mp4").1 ++ "-cd" ++
        toString ((if sampleFile2.id ∈ sampleScene.files.map FileObj.id then
          List.indexOf sampleFile2.id (sampleScene.files.map FileObj.id) else 0) + 1) ++
        (splitext "a.mp4").2 :=
  ⟨⟨rfl, by decide, by decide⟩,
    (c2_apply_multi_file_suffix "a.mp4" sampleScene sampleFile2 sampleSettings).2.2
      rfl (by decide) (by decide)⟩

/-! ## Claim C4: download retry schedule -/

theorem dlLoop_attempts_le (att : Nat → Attempt)
    (finalOf : String → String → String) :
    ∀ (r i : Nat), (dlLoop att finalOf i r).attempts ≤ r := by
  intro r
  induction r with
  | zero => intro i; simp [dlLoop]
  | succ r ih =>
    intro i
    cases h : att i with
    | ok ct ru => simp [dlLoop, h]
    | fail =>
      by_cases hr : r = 0
      · simp [dlLoop, h, hr]
      · simp only [dlLoop, h, if_neg hr]
        have := ih (i + 1)
        omega

/-- C4: _download_binary performs at most 3 HTTP attempts, sleeps 2i
seconds after failed attempt i for i below 3, returns False (a value,
not an exception) when all three attempts fail, and on the first
successful attempt writes the response body at the destination path and
returns True. -/
theorem c4_download_binary_retries (url dstPath : String) (conn : ServerConn)
    (att : Nat → Attempt) :
    (auto_download_binary url dstPath conn false att).attempts ≤ 3 ∧
    (∀ ct ru, url ≠ "" → att 1 = Attempt.ok ct ru →
      auto_download_binary url dstPath conn false att =
        ⟨true, build_absolute_url url conn, [dirname dstPath], [dstPath], [], 1⟩) ∧
    (∀ ct ru, url ≠ "" → att 1 = Attempt.fail → att 2 = Attempt.ok ct ru →
      auto_download_binary url dstPath conn false att =
        ⟨true, build_absolute_url url conn, [dirname dstPath], [dstPath], [2], 2⟩) ∧
    (∀ ct ru, url ≠ "" → att 1 = Attempt.fail → att 2 = Attempt.fail →
      att 3 = Attempt.ok ct ru →
      auto_download_binary url dstPath conn false att =
        ⟨true, build_absolute_url url conn, [dirname dstPath], [dstPath], [2, 4], 3⟩) ∧
    (url ≠ "" → att 1 = Attempt.fail → att 2 = Attempt.fail →
      att 3 = Attempt.fail →
      auto_download_binary url dstPath conn false att =
        ⟨false, build_absolute_url url conn, [], [], [2, 4], 3⟩) := by
  refine ⟨?_, ?_, ?_, ?_, ?_⟩
  · by_cases h : url = ""
    · simp [auto_download_binary, h]
    · simp only [auto_download_binary, if_neg h]
      exact dlLoop_attempts_le att _ 3 1
  · intro ct ru h h1
    simp [auto_download_binary, h, dlLoop, h1, auto_final_path]
  · intro ct ru h h1 h2
    simp [auto_download_binary, h, dlLoop, h1, h2, auto_final_path]
  · intro ct ru h h1 h2 h3
    simp [auto_download_binary, h, dlLoop, h1, h2, h3, auto_final_path]
  · intro h h1 h2 h3
    simp [auto_download_binary, h, dlLoop, h1, h2, h3]

theorem c4_witness :
    auto_download_binary "/scene/12/screenshot" "/lib/x-poster.jpg" sampleConn
        false (fun i => if i < 3 then Attempt.fail else Attempt.ok "image/jpeg" "") =
      ⟨true, build_absolute_url "/scene/12/screenshot" sampleConn,
        [dirname "/lib/x-poster.jpg"], ["/lib/x-poster.jpg"], [2, 4], 3⟩ :=
  (c4_download_binary_retries "/scene/12/screenshot" "/lib/x-poster.jpg"
      sampleConn (fun i => if i < 3 then Attempt.fail else Attempt.ok "image/jpeg" "")).2.2.2.1
    "image/jpeg" "" (by decide) (by decide) (by decide) (by decide)

/-! ## Claim C7: the Emby uploader copies are not behaviourally equal -/

/-- C7 counterexample: the two cited _download_binary copies disagree on
equal inputs once extension detection is requested: for a PNG response
the AutoMoveOrganized copy writes the destination plus a png extension
while the actorSyncEmby copy writes the bare destination, so the modules
are not behaviourally equivalent. -/
theorem c7_counterexample :
    auto_download_binary "http://stash/image" "/lib/a-poster" sampleConn true
        (fun _ => Attempt.ok "image/png" "") ≠
      actor_download_binary "http://stash/image" "/lib/a-poster" sampleConn true
        (fun _ => Attempt.ok "image/png" "") := by
  decide

/-- C7 amended: without extension detection the AutoMoveOrganized and
actorSyncEmby _download_binary copies are behaviourally equivalent:
equal inputs give equal results, requests, sleeps, directory creations
and file writes. -/
theorem c7_amended_download_equivalence (url dstPath : String)
    (conn : ServerConn) (att : Nat → Attempt) :
    auto_download_binary url dstPath conn false att =
      actor_download_binary url dstPath conn false att := by
  simp [auto_download_binary, actor_download_binary, auto_final_path,
    actor_final_path]

/-! ## Claim C8: detached worker processes -/

/-- C8 counterexample: a successful create hook of StudioToCollection
(studio, Emby user and collection all found) spawns a detached worker
process through subprocess.Popen with start_new_session, so handling a
create hook does leave work running after the plugin process returns. -/
theorem c8_counterexample :
    PEffect.spawnDetachedWorker 7 ∈ handle_create_hook_effects true true true 7 := by
  decide

/-- C8 amended: apart from create-hook handling no modelled operation
spawns a process: the StudioToCollection create hook spawns exactly one
detached worker when its three lookups succeed and none otherwise, the
actorSyncEmby hook handler spawns exactly one detached worker for a
create hook with hook_mode 2, or 3 with an Emby uploader loaded, and
never for update hooks; start_worker itself always spawns exactly
one. -/
theorem c8_amended_spawn_characterisation :
    (∀ sf uf cf id, countSpawns (handle_create_hook_effects sf uf cf id) =
       if sf ∧ uf ∧ cf then 1 else 0) ∧
    (∀ m isCreate hl he pid,
       countSpawns (process_hook_performer_effects m isCreate hl he pid) =
         if isCreate ∧ (m = 2 ∨ (m = 3 ∧ he = true)) then 1 else 0) ∧
    (∀ id, countSpawns (start_worker_effects id) = 1) := by
  refine ⟨?_, ?_, ?_⟩
  · intro sf uf cf id
    cases sf <;> cases uf <;> cases cf <;>
      simp [handle_create_hook_effects, start_worker_effects, countSpawns]
  · intro m isCreate hl he pid
    by_cases h0 : m = 0
    · subst h0; cases isCreate <;> simp [process_hook_performer_effects, countSpawns]
    · by_cases h1 : m = 1
      · subst h1
        cases isCreate <;> cases hl <;>
          simp [process_hook_performer_effects, countSpawns]
      · by_cases h2 : m = 2
        · subst h2
          cases isCreate <;> cases he <;>
            simp [process_hook_performer_effects, countSpawns, h0]
        · by_cases h3 : m = 3
          · subst h3
            cases isCreate <;> cases hl <;> cases he <;>
              simp [process_hook_performer_effects, countSpawns, h0, h2]
          · cases isCreate <;>
              simp [process_hook_performer_effects, countSpawns, h0, h1, h2, h3]
  · intro id
    simp [start_worker_effects, countSpawns]

/-! ## Claim C9: the worker sleep-and-retry schedule -/

/-- C9: the create-hook sync worker sleeps the configured Stash wait,
refreshes the Emby library, sleeps the configured Emby wait (the
defaults parse to 35 and 70 seconds), then runs at most 4 upload
attempts sleeping 30, 60 and 90 seconds before the retries, exiting
with status 0 at the first success and status 1 after the fourth
failure. -/
theorem c9_worker_schedule (stashWait embyWait : Int) (att : Nat → WAttempt) :
    (actor_sync_worker_run stashWait embyWait att).attempts ≤ 4 ∧
    parseWorkerDelays "35,70" = (35, 70) ∧
    (actor_sync_worker_run stashWait embyWait att).refreshedEmby = true ∧
    (∀ j, j < 4 → att j = WAttempt.uploadSuccess →
      (∀ k, k < j → att k ≠ WAttempt.uploadSuccess) →
      actor_sync_worker_run stashWait embyWait att =
        ⟨0, stashWait :: embyWait :: retryDelays.take j, true, j + 1⟩) ∧
    ((∀ j, j < 4 → att j ≠ WAttempt.uploadSuccess) →
      actor_sync_worker_run stashWait embyWait att =
        ⟨1, stashWait :: embyWait :: retryDelays, true, 4⟩) := by
  refine ⟨?_, by decide, rfl, ?_, ?_⟩
  · by_cases h0 : att 0 = WAttempt.uploadSuccess
    · simp [actor_sync_worker_run, retryDelays, workerLoop, h0]
    · by_cases h1 : att 1 = WAttempt.uploadSuccess <;>
        by_cases h2 : att 2 = WAttempt.uploadSuccess <;>
        by_cases h3 : att 3 = WAttempt.uploadSuccess <;>
        simp [actor_sync_worker_run, retryDelays, workerLoop, h0, h1, h2, h3]
  · intro j hj hs hprev
    interval_cases j
    · simp [actor_sync_worker_run, retryDelays, workerLoop, hs]
    · have h0 := hprev 0 (by omega)
      simp [actor_sync_worker_run, retryDelays, workerLoop, hs, h0]
    · have h0 := hprev 0 (by omega)
      have h1 := hprev 1 (by omega)
      simp [actor_sync_worker_run, retryDelays, workerLoop, hs, h0, h1]
    · have h0 := hprev 0 (by omega)
      have h1 := hprev 1 (by omega)
      have h2 := hprev 2 (by omega)
      simp [actor_sync_worker_run, retryDelays, workerLoop, hs, h0, h1, h2]
  · intro hall
    have h0 := hall 0 (by omega)
    have h1 := hall 1 (by omega)
    have h2 := hall 2 (by omega)
    have h3 := hall 3 (by omega)
    simp [actor_sync_worker_run, retryDelays, workerLoop, h0, h1, h2, h3]

theorem c9_witness :
    actor_sync_worker_run 35 70
        (fun i => if i < 2 then WAttempt.notInEmby else WAttempt.uploadSuccess) =
      ⟨0, (35 : Int) :: (70 : Int) :: retryDelays.take 2, true, 3⟩ :=
  (c9_worker_schedule 35 70
      (fun i => if i < 2 then WAttempt.notInEmby else WAttempt.uploadSuccess)).2.2.2.1
    2 (by omega) (by decide) (by intro k hk; interval_cases k <;> decide)

/-! ## Claim C3: only organized files are moved -/

theorem is_file_organized_of_move_only (scene : Scene) (settings : Settings)
    (h : settings.move_only_organized = true) :
    is_file_organized scene settings = organizedTruthy scene.organized := by
  cases ho : scene.organized <;> simp [is_file_organized, organizedTruthy, h, ho]

/-- C3: the organizer moves only organized files.  In hook mode a scene
whose organized flag is not true is skipped with zero files moved; in
task mode with move_only_organized every scene with a false organized
flag contributes nothing, so the total equals the total over the
organized scenes alone; and process_scene moves no file of a scene
without a truthy organized flag, whatever the environment does. -/
theorem c3_only_organized_moved
    (settings : Settings) (scene : Scene)
    (moveOk : Nat → FileObj → Bool) (inTargetLoc : FileObj → Bool)
    (existingTargetOf : FileObj → Option String) (regenOk : FileObj → Bool)
    (scenes : List Scene) (taskMove : Scene → Nat → FileObj → Bool) :
    (settings.enable_hook_mode = true → organizedTruthy scene.organized = false →
      handle_hook_scene (some scene) settings moveOk inTargetLoc
        existingTargetOf regenOk = (HookOutcome.notOrganized, [])) ∧
    (settings.move_only_organized = true →
      task_total_moved scenes settings taskMove =
        task_total_moved (scenes.filter (fun sc => organizedTruthy sc.organized))
          settings taskMove) ∧
    (settings.move_only_organized = true → organizedTruthy scene.organized = false →
      process_scene_moved scene settings moveOk = []) := by
  refine ⟨?_, ?_, ?_⟩
  · intro he horg
    simp [handle_hook_scene, he, horg]
  · intro hm
    induction scenes with
    | nil => rfl
    | cons sc scs ih =>
      unfold task_total_moved at ih ⊢
      by_cases ho : organizedTruthy sc.organized = true
      · rw [List.filter_cons_of_pos (by simpa using ho), List.map_cons,
          List.map_cons, List.sum_cons, List.sum_cons,
          if_neg (by simp [ho]), ih]
      · rw [List.filter_cons_of_neg (by simpa using ho), List.map_cons,
          List.sum_cons, if_pos ⟨by simpa using ho, hm⟩, ih]
        omega
  · intro hm horg
    unfold process_scene_moved
    by_cases hnil : scene.files = []
    · simp [hnil]
    · rw [if_neg hnil, is_file_organized_of_move_only scene settings hm, horg]
      simp

theorem c3_witness :
    (sampleSettings.enable_hook_mode = true ∧
      organizedTruthy (some false) = false) ∧
    handle_hook_scene (some { sampleScene with organized := some false })
        sampleSettings (fun _ _ => true) (fun _ => false) (fun _ => none)
        (fun _ => true) = (HookOutcome.notOrganized, []) ∧
    process_scene_moved { sampleScene with organized := none } sampleSettings
        (fun _ _ => true) = [] :=
  ⟨⟨rfl, rfl⟩,
    (c3_only_organized_moved sampleSettings
        { sampleScene with organized := some false } (fun _ _ => true)
        (fun _ => false) (fun _ => none) (fun _ => true) [] (fun _ _ _ => true)).1
      rfl rfl,
    (c3_only_organized_moved sampleSettings
        { sampleScene with organized := none } (fun _ _ => true)
        (fun _ => false) (fun _ => none) (fun _ => true) [] (fun _ _ _ => true)).2.2
      rfl rfl⟩

/-! ## Claim C10: dry runs only create the destination directory -/

theorem remove_old_metadata_dry (fs : FSView) (p : String) (settings : Settings)
    (h : settings.dry_run = true) :
    remove_old_metadata_effects fs p settings = [] := by
  simp [remove_old_metadata_effects, h]

theorem subtitle_item_dry (fs : FSView) (settings : Settings)
    (srcDir dstDir srcStem dstStem name : String)
    (h : settings.dry_run = true) :
    subtitle_item_effects fs settings srcDir dstDir srcStem dstStem name = [] := by
  unfold subtitle_item_effects
  split_ifs <;> simp_all

theorem move_related_subtitle_files_dry (fs : FSView) (src dst : String)
    (settings : Settings) (h : settings.dry_run = true) :
    move_related_subtitle_files_effects fs src dst settings = [] := by
  unfold move_related_subtitle_files_effects
  dsimp only
  split
  · rfl
  · split
    · rfl
    · rw [List.flatten_eq_nil_iff]
      intro l hl
      rw [List.mem_map] at hl
      obtain ⟨name, _, rfl⟩ := hl
      exact subtitle_item_dry fs settings _ _ _ _ name h

theorem write_nfo_dry (videoPath : String) (settings : Settings)
    (h : settings.dry_run = true) :
    write_nfo_for_scene_effects videoPath settings = [] := by
  unfold write_nfo_for_scene_effects
  split_ifs <;> simp_all

theorem download_scene_art_dry (fs : FSView) (scene : Scene) (videoPath : String)
    (settings : Settings) (att : Nat → Attempt) (overlayEffects : List FSEffect)
    (h : settings.dry_run = true) :
    download_scene_art_effects fs scene videoPath settings att overlayEffects = [] := by
  unfold download_scene_art_effects
  split_ifs <;> simp_all

/-- C10: under dry_run a run of move_file_with_suffix_handling,
together with its post-processing of subtitles, NFO and poster art and
the metadata cleanup helper, removes nothing, moves nothing and writes
nothing: every emitted effect is an os.makedirs call (concretely, at
most the creation of the destination directory). -/
theorem c10_dry_run_only_makedirs
    (fs : FSView) (scene : Scene) (fileObj : FileObj) (settings : Settings)
    (gqlMoveOk : Bool) (att : Nat → Attempt) (overlayEffects : List FSEffect)
    (isMoving : Bool) (hdry : settings.dry_run = true) :
    (∀ e ∈ move_file_with_suffix_handling_effects fs scene fileObj settings
        gqlMoveOk att overlayEffects isMoving,
      ∃ d, e = FSEffect.makedirs d) ∧
    remove_old_metadata_effects fs fileObj.path settings = [] := by
  refine ⟨?_, remove_old_metadata_dry fs fileObj.path settings hdry⟩
  intro e he
  unfold move_file_with_suffix_handling_effects at he
  by_cases hp : fileObj.path = ""
  · simp [hp] at he
  · rw [if_neg hp] at he
    by_cases hid : fileObj.id = ""
    · simp [hid] at he
    · rw [if_neg hid] at he
      cases hb : build_target_path scene fileObj.path fileObj settings with
      | error msg => rw [hb] at he; simp at he
      | ok dst =>
        rw [hb] at he
        simp only [hdry, Bool.true_eq_false, not_true_eq_false, false_and,
          if_false, ite_false, not_false_eq_true, true_and,
          move_related_subtitle_files_dry fs _ _ settings hdry,
          write_nfo_dry _ settings hdry,
          download_scene_art_dry fs scene _ settings att overlayEffects hdry,
          List.append_nil, List.nil_append] at he
        simp only [List.mem_singleton] at he
        exact ⟨dirname dst, he⟩

/-- A concrete read-only filesystem view for the witnesses: nothing
exists except the source directory, which contains one subtitle. -/
def sampleFS : FSView :=
  { pathExists := fun _ => false,
    isDir := fun d => d = "/data/src/sub1/deep",
    isFile := fun _ => true,
    listdir := fun _ => ["movie.srt"] }

def sampleDrySettings : Settings := { sampleSettings with dry_run := true }

theorem c10_witness :
    (∃ d, FSEffect.makedirs (dirname "/data/dst/sub1/Stu_dio/2025-01-02 My Title-cd1.mp4") =
      FSEffect.makedirs d) ∧
    remove_old_metadata_effects sampleFS sampleFile1.path sampleDrySettings = [] :=
  ⟨(c10_dry_run_only_makedirs sampleFS sampleScene sampleFile1 sampleDrySettings
        true (fun _ => Attempt.fail) [] false rfl).1
      (FSEffect.makedirs (dirname "/data/dst/sub1/Stu_dio/2025-01-02 My Title-cd1.mp4"))
      (by decide),
    (c10_dry_run_only_makedirs sampleFS sampleScene sampleFile1 sampleDrySettings
        true (fun _ => Attempt.fail) [] false rfl).2⟩

end StashEmby
